import Mathlib

/-!
Verification of the multi-engine OCR escalation core of the Ai-CPrice backend
(`backend/app/services/ocr/engine_manager.py`, `backend/app/models/ocr_result.py`,
`backend/app/config.py`).

The Python code is shallowly embedded: confidences (Python floats) become
rationals, engine adapters become an abstract behaviour function
(engine name, block type, image path) ↦ either a recognition response or a
raised exception message (adapters receive only the image path: the quality
level is recorded on the attempt but never passed to the adapter, see
`_attempt_ocr`), and the mutable `usage_stats` dictionary becomes explicit
state threading.

The `OCRResult(...)` constructions are fallible: the pydantic model types
`attempts` as `List[OCRAttemptResult]` while the cascade passes its own
stdlib-dataclass `OCRAttempt` objects, which pydantic rejects, so every
return path of both resolvers raises a `ValidationError`; the resolvers
therefore yield `Except ValidationError OCRResult` (always an error in
practice), while the counter mutations made before the construction persist.
-/

namespace AiCPrice

/-- `ConfidenceLevel` enum, models/ocr_result.py lines 10-14. -/
inductive ConfidenceLevel where
  | high
  | medium
  | low
deriving DecidableEq, Repr

/-- One OCR attempt record, engine_manager.py lines 20-37 (timestamps, which are
wall-clock side effects, are omitted; no claim depends on them). `result` is
`Option String` for the nullable Python field. -/
structure OCRAttempt where
  engine : String
  attempt_number : Nat
  image_quality : String
  confidence : ℚ
  result : Option String
  is_compilable : Bool
  error : Option String
deriving DecidableEq, Repr

/-- Final OCR result, models/ocr_result.py lines 60-78. `text` is a plain
string: every construction site in engine_manager.py passes either a string
known non-null at that point or `best_attempt.result or ""`. -/
structure OCRResult where
  text : String
  confidence : ℚ
  confidence_level : ConfidenceLevel
  engine_used : String
  attempts : List OCRAttempt
  is_successful : Bool
  is_compilable : Bool
deriving DecidableEq, Repr

/-- The dict `{"text": ..., "confidence": ...}` returned by an adapter's
`recognize_text` / `recognize_formula` (engine-specific metadata omitted). -/
structure EngineResponse where
  text : String
  confidence : ℚ
deriving DecidableEq, Repr

/-- Abstract behaviour of the engine adapters: arguments are engine name,
block type ("text" or "formula", selecting which recognize method is called)
and image path; the result is a response or a raised exception's message. -/
abbrev Behavior := String → String → String → Except String EngineResponse

/-- The configuration fields of `Settings` (config.py lines 27-41) that the
escalation core reads. -/
structure Settings where
  text_confidence_threshold : ℚ
  formula_confidence_threshold : ℚ
  mathpix_daily_limit : Nat
deriving DecidableEq, Repr

/-- `OCR_ENGINE_CONFIG` (config.py lines 77-87): per-modality priority lists. -/
structure EngineConfig where
  text_primary : String
  text_fallback : List String
  formula_primary : String
  formula_fallback : List String
  formula_emergency : Option String
deriving DecidableEq, Repr

/-- The shipped default configuration values (config.py, all engines enabled). -/
def defaultSettings : Settings :=
  { text_confidence_threshold := Rat.divInt 8 10
    formula_confidence_threshold := Rat.divInt 7 10
    mathpix_daily_limit := 100 }

/-- `OCR_ENGINE_CONFIG` with all engines enabled (config.py lines 77-87). -/
def defaultEngineConfig : EngineConfig :=
  { text_primary := "paddleocr"
    text_fallback := ["tesseract", "doctr"]
    formula_primary := "pix2tex"
    formula_fallback := ["trocr"]
    formula_emergency := some "mathpix" }

/-- `self.usage_stats`, engine_manager.py lines 45-51. -/
structure UsageStats where
  total_requests : Nat
  successful_requests : Nat
  fallback_usage : Nat
  emergency_usage : Nat
  mathpix_daily_usage : Nat
deriving DecidableEq, Repr

/-- Fresh statistics dictionary created in `__init__`. -/
def initStats : UsageStats :=
  { total_requests := 0, successful_requests := 0, fallback_usage := 0
    emergency_usage := 0, mathpix_daily_usage := 0 }

/-- `_validate_latex`, engine_manager.py lines 322-344: empty/whitespace-only
text fails, brace counts must match, and the characters < > & % # are
forbidden.  (The `try` wrapper is dead: the body raises nothing.)
Python's `not latex_text.strip()` is rendered as "every character is
whitespace", which also covers the empty string. -/
def validate_latex (latex_text : String) : Bool :=
  if latex_text.toList.all Char.isWhitespace then false
  else
    let open_braces := latex_text.toList.count '\x7b'
    let close_braces := latex_text.toList.count '\x7d'
    if open_braces ≠ close_braces then false
    else
      let forbidden_chars : List Char := ['<', '>', '&', '%', '#']
      if forbidden_chars.any (fun c => latex_text.toList.contains c) then false
      else true

/-- The compilability test the formula cascade applies to one attempt:
`result.result and await self._validate_latex(result.result)`
(engine_manager.py lines 177, 201, 225, 254).  A `None` or empty (falsy)
result text short-circuits to false. -/
def formulaCheck (a : OCRAttempt) : Bool :=
  match a.result with
  | none => false
  | some s => if s = "" then false else validate_latex s

/-- Setting `result.is_compilable` from the check above.  In the Python the
flag is mutated on the attempt object already appended to the list; storing
the computed value at append time yields the same final list. -/
def sealFormula (a : OCRAttempt) : OCRAttempt :=
  { a with is_compilable := formulaCheck a }

/-- Text-tier acceptance: `result.confidence >= settings.text_confidence_threshold`
(engine_manager.py lines 100, 121, 142). -/
def text_accept (s : Settings) (a : OCRAttempt) : Bool :=
  decide (s.text_confidence_threshold ≤ a.confidence)

/-- Formula-tier acceptance for the PRIMARY/FALLBACKS/QUALITY_RETRY tiers,
applied to a sealed attempt: compilable and
`confidence >= settings.formula_confidence_threshold`
(engine_manager.py lines 177-179, 201-203, 225-227). -/
def formula_accept (s : Settings) (a : OCRAttempt) : Bool :=
  a.is_compilable && decide (s.formula_confidence_threshold ≤ a.confidence)

/-- The field values handed to the `OCRResult(...)` constructor at one call
site.  `confidence_level` keeps its declared default LOW: `OCRResult` is a
pydantic `BaseModel`, and pydantic never invokes the dataclass-style
`__post_init__` hook defined at models/ocr_result.py line 71, so the
derivation written there is dead code. -/
def attemptedOCRResult (text : String) (confidence : ℚ) (engine_used : String)
    (attempts : List OCRAttempt) (is_successful : Bool) (is_compilable : Bool) :
    OCRResult :=
  { text := text, confidence := confidence
    confidence_level := ConfidenceLevel.low
    engine_used := engine_used, attempts := attempts
    is_successful := is_successful, is_compilable := is_compilable }

/-- The pydantic `ValidationError` raised by `OCRResult(...)` when validation
of the `attempts` field fails.  Pydantic v2 validation errors carry the
offending input values (`errors()[i]["input"]`); `attempted` packages the
constructor inputs of the failed call. -/
structure ValidationError where
  attempted : OCRResult
deriving DecidableEq, Repr

/-- `OCRResult(...)` construction as called by the cascade.  The model field
`attempts` is declared `List[OCRAttemptResult]` (models/ocr_result.py
line 66), but every call site in engine_manager.py passes the manager's own
stdlib-dataclass `OCRAttempt` instances (engine_manager.py lines 20-37);
pydantic v2 (pinned by config.py's `pydantic_settings` import; v1 behaves the
same) rejects arbitrary class instances for a `BaseModel`-typed item absent
`from_attributes`, so the construction raises a `ValidationError` whenever
the attempts list is non-empty — that is, at every return site of both
resolvers.  An empty attempts list validates (the remaining fields are plain
coercible values). -/
def mkOCRResult (text : String) (confidence : ℚ) (engine_used : String)
    (attempts : List OCRAttempt) (is_successful : Bool) (is_compilable : Bool) :
    Except ValidationError OCRResult :=
  if attempts.isEmpty then
    Except.ok (attemptedOCRResult text confidence engine_used attempts
      is_successful is_compilable)
  else
    Except.error
      { attempted := attemptedOCRResult text confidence engine_used attempts
          is_successful is_compilable }

end AiCPrice

/-- The constructor inputs of a resolver exit: the returned result when the
construction validated, otherwise the inputs recorded in the raised
`ValidationError`. -/
def Except.fields : Except AiCPrice.ValidationError AiCPrice.OCRResult → AiCPrice.OCRResult
  | Except.ok r => r
  | Except.error e => e.attempted

/-- Whether the resolver exit raised rather than returned. -/
def Except.raised : Except AiCPrice.ValidationError AiCPrice.OCRResult → Bool
  | Except.ok _ => false
  | Except.error _ => true

namespace AiCPrice

/-- The confidence-level derivation as written in the (never invoked)
`__post_init__` body, models/ocr_result.py lines 71-78. -/
def confidence_level_of (confidence : ℚ) : ConfidenceLevel :=
  if confidence ≥ Rat.divInt 9 10 then ConfidenceLevel.high
  else if confidence ≥ Rat.divInt 7 10 then ConfidenceLevel.medium
  else ConfidenceLevel.low

/-- `_attempt_ocr`, engine_manager.py lines 281-320.  An engine name absent
from `self.engines` raises `ValueError` inside the `try`, so it lands in the
same `except` as an adapter exception: the attempt is sealed with the default
confidence 0.0, no result text and the error message. -/
def attempt_ocr (engines : List String) (beh : Behavior) (engine_name : String)
    (image_path : String) (block_type : String) (quality_level : String)
    (attempt_number : Nat) : OCRAttempt :=
  if engine_name ∈ engines then
    match beh engine_name block_type image_path with
    | Except.ok r =>
        { engine := engine_name, attempt_number := attempt_number
          image_quality := quality_level, confidence := r.confidence
          result := some r.text, is_compilable := false, error := none }
    | Except.error e =>
        { engine := engine_name, attempt_number := attempt_number
          image_quality := quality_level, confidence := 0
          result := none, is_compilable := false, error := some e }
  else
    { engine := engine_name, attempt_number := attempt_number
      image_quality := quality_level, confidence := 0
      result := none, is_compilable := false
      error := some "engine not enabled or initialized" }

/-- Python `max(attempts, key=lambda x: x.confidence)`: first attempt of
maximal confidence (later elements replace only on strictly greater key);
`none` on the empty list, where Python `max` would raise — the cascade never
reaches that case since the primary attempt is always recorded. -/
def max_by_confidence : List OCRAttempt → Option OCRAttempt
  | [] => none
  | a :: rest =>
      some (rest.foldl (fun best x =>
        if best.confidence < x.confidence then x else best) a)

/-- Best-effort return of the text cascade, engine_manager.py lines 151-159. -/
def best_effort_text (attempts : List OCRAttempt) : Except ValidationError OCRResult :=
  match max_by_confidence attempts with
  | some best_attempt =>
      mkOCRResult (best_attempt.result.getD "") best_attempt.confidence
        best_attempt.engine attempts false false
  | none => mkOCRResult "" 0 "" [] false false

/-- The attempt the formula best-effort return is built from,
engine_manager.py lines 265-270: the maximum-confidence compilable attempt,
or the overall maximum-confidence attempt when none is compilable. -/
def best_effort_formula_choice (attempts : List OCRAttempt) : Option OCRAttempt :=
  let compilable_attempts := attempts.filter (fun a => a.is_compilable)
  match compilable_attempts with
  | [] => max_by_confidence attempts
  | _ => max_by_confidence compilable_attempts

/-- Best-effort return of the formula cascade, engine_manager.py lines 265-279. -/
def best_effort_formula (attempts : List OCRAttempt) : Except ValidationError OCRResult :=
  match best_effort_formula_choice attempts with
  | some best_attempt =>
      mkOCRResult (best_attempt.result.getD "") best_attempt.confidence
        best_attempt.engine attempts best_attempt.is_compilable
        best_attempt.is_compilable
  | none => mkOCRResult "" 0 "" [] false false

/-- The FALLBACKS loop of the text cascade, engine_manager.py lines 110-129:
engines absent from the registry are skipped without an attempt; an accepted
attempt increments `fallback_usage` and returns the result.  Returns the
accepted result (if any), the extended attempts list and the updated stats. -/
def text_fallbacks (s : Settings) (engines : List String) (beh : Behavior)
    (image_path : String) (quality_level : String) :
    List String → List OCRAttempt → UsageStats →
    Option (Except ValidationError OCRResult) × List OCRAttempt × UsageStats
  | [], attempts, stats => (none, attempts, stats)
  | fallback_engine :: rest, attempts, stats =>
    if fallback_engine ∈ engines then
      let r := attempt_ocr engines beh fallback_engine image_path "text"
        quality_level (attempts.length + 1)
      let attempts2 := attempts ++ [r]
      if text_accept s r then
        (some (mkOCRResult (r.result.getD "") r.confidence fallback_engine
          attempts2 true false), attempts2,
          { stats with fallback_usage := stats.fallback_usage + 1 })
      else
        text_fallbacks s engines beh image_path quality_level rest attempts2 stats
    else
      text_fallbacks s engines beh image_path quality_level rest attempts stats

/-- `process_text_block`, engine_manager.py lines 85-159.  Every return path
constructs `OCRResult(...)` with the non-empty dataclass attempts list, so
every call exits with a raised `ValidationError`; the statistics mutations
made before the construction persist on the manager object. -/
def process_text_block (s : Settings) (ec : EngineConfig) (engines : List String)
    (beh : Behavior) (image_path : String) (quality_level : String)
    (stats : UsageStats) : Except ValidationError OCRResult × UsageStats :=
  let primary_engine := ec.text_primary
  let r1 := attempt_ocr engines beh primary_engine image_path "text"
    quality_level 1
  let attempts1 := [r1]
  if text_accept s r1 then
    (mkOCRResult (r1.result.getD "") r1.confidence primary_engine attempts1
      true false, stats)
  else
    match text_fallbacks s engines beh image_path quality_level
        ec.text_fallback attempts1 stats with
    | (some out, _, stats2) => (out, stats2)
    | (none, attempts2, stats2) =>
      if quality_level ≠ "A" then
        let r := attempt_ocr engines beh primary_engine image_path "text" "A"
          (attempts2.length + 1)
        let attempts3 := attempts2 ++ [r]
        if text_accept s r then
          (mkOCRResult (r.result.getD "") r.confidence primary_engine attempts3
            true false, stats2)
        else
          (best_effort_text attempts3, stats2)
      else
        (best_effort_text attempts2, stats2)

/-- The FALLBACKS loop of the formula cascade, engine_manager.py
lines 190-212. -/
def formula_fallbacks (s : Settings) (engines : List String) (beh : Behavior)
    (image_path : String) (quality_level : String) :
    List String → List OCRAttempt → UsageStats →
    Option (Except ValidationError OCRResult) × List OCRAttempt × UsageStats
  | [], attempts, stats => (none, attempts, stats)
  | fallback_engine :: rest, attempts, stats =>
    if fallback_engine ∈ engines then
      let r := sealFormula (attempt_ocr engines beh fallback_engine image_path
        "formula" quality_level (attempts.length + 1))
      let attempts2 := attempts ++ [r]
      if formula_accept s r then
        (some (mkOCRResult (r.result.getD "") r.confidence fallback_engine
          attempts2 true true), attempts2,
          { stats with fallback_usage := stats.fallback_usage + 1 })
      else
        formula_fallbacks s engines beh image_path quality_level rest attempts2 stats
    else
      formula_fallbacks s engines beh image_path quality_level rest attempts stats

/-- The EMERGENCY-tier entry condition, engine_manager.py lines 238-241:
an emergency engine is configured (and truthy), is present in the registry,
and the daily Mathpix usage is strictly below the configured daily limit. -/
def emergency_available (s : Settings) (ec : EngineConfig)
    (engines : List String) (stats : UsageStats) : Bool :=
  match ec.formula_emergency with
  | none => false
  | some em =>
      !(em = "") && engines.contains em &&
        decide (stats.mathpix_daily_usage < s.mathpix_daily_limit)

/-- EMERGENCY tier plus best-effort return, engine_manager.py lines 237-279:
the emergency attempt always runs at quality "A", always increments
`mathpix_daily_usage` and `emergency_usage`, and is accepted on compilability
alone (no confidence threshold). -/
def formula_emergency_and_best_effort (s : Settings) (ec : EngineConfig)
    (engines : List String) (beh : Behavior) (image_path : String)
    (attempts : List OCRAttempt) (stats : UsageStats) :
    Except ValidationError OCRResult × UsageStats :=
  if emergency_available s ec engines stats then
    let emergency_engine := ec.formula_emergency.getD ""
    let r := sealFormula (attempt_ocr engines beh emergency_engine image_path
      "formula" "A" (attempts.length + 1))
    let attempts2 := attempts ++ [r]
    let stats2 := { stats with
      mathpix_daily_usage := stats.mathpix_daily_usage + 1
      emergency_usage := stats.emergency_usage + 1 }
    if r.is_compilable then
      (mkOCRResult (r.result.getD "") r.confidence emergency_engine attempts2
        true true, stats2)
    else
      (best_effort_formula attempts2, stats2)
  else
    (best_effort_formula attempts, stats)

/-- `process_formula_block`, engine_manager.py lines 161-279.  As with the
text resolver, every return path raises a `ValidationError` at `OCRResult`
construction; counter increments made before that point persist. -/
def process_formula_block (s : Settings) (ec : EngineConfig)
    (engines : List String) (beh : Behavior) (image_path : String)
    (quality_level : String) (stats : UsageStats) :
    Except ValidationError OCRResult × UsageStats :=
  let primary_engine := ec.formula_primary
  let r1 := sealFormula (attempt_ocr engines beh primary_engine image_path
    "formula" quality_level 1)
  let attempts1 := [r1]
  if formula_accept s r1 then
    (mkOCRResult (r1.result.getD "") r1.confidence primary_engine attempts1
      true true, stats)
  else
    match formula_fallbacks s engines beh image_path quality_level
        ec.formula_fallback attempts1 stats with
    | (some out, _, stats2) => (out, stats2)
    | (none, attempts2, stats2) =>
      if quality_level ≠ "A" then
        let r := sealFormula (attempt_ocr engines beh primary_engine image_path
          "formula" "A" (attempts2.length + 1))
        let attempts3 := attempts2 ++ [r]
        if formula_accept s r then
          (mkOCRResult (r.result.getD "") r.confidence primary_engine attempts3
            true true, stats2)
        else
          formula_emergency_and_best_effort s ec engines beh image_path
            attempts3 stats2
      else
        formula_emergency_and_best_effort s ec engines beh image_path
          attempts2 stats2

/-- Sequential formula-block resolutions sharing the usage statistics:
each job supplies its own adapter behaviour, image path and quality level. -/
def run_formula_jobs (s : Settings) (ec : EngineConfig) (engines : List String)
    (jobs : List (Behavior × String × String)) (stats : UsageStats) : UsageStats :=
  jobs.foldl (fun st j =>
    (process_formula_block s ec engines j.1 j.2.1 j.2.2 st).2) stats

/-- Registry startup, engine_manager.py lines 53-83, abstracted over the
enabled-engine list in source order.  Each enabled adapter is inserted into
`self.engines` and then its `initialize()` is awaited with no surrounding
try/except; `initOk e = false` models `initialize()` raising (the concrete
adapters re-raise after logging, e.g. tesseract_engine.py line 46).  Returns
the registry contents and the engine whose initialization aborted startup,
if any. -/
def initialize_engines : List String → (String → Bool) → List String × Option String
  | [], _ => ([], none)
  | e :: rest, initOk =>
    if initOk e then
      let out := initialize_engines rest initOk
      (e :: out.1, out.2)
    else
      ([e], some e)

/-- The attempts carry consecutive sequence numbers starting at `k`;
`numberedFrom 1 l` states the 1-based strictly increasing numbering of an
attempt trail. -/
def numberedFrom : Nat → List OCRAttempt → Prop
  | _, [] => True
  | k, a :: rest => a.attempt_number = k ∧ numberedFrom (k + 1) rest

/-- Adapter behaviour fixture used to evaluate the embedding at concrete
inputs: only the primary text engine answers, at high confidence. -/
def behText95 : Behavior := fun engine_name block_type _ =>
  if engine_name = "paddleocr" ∧ block_type = "text" then
    Except.ok { text := "hello", confidence := Rat.divInt 95 100 }
  else Except.error "engine raised"

/-- Adapter behaviour fixture: only the emergency formula engine answers,
with compilable LaTeX at confidence below every threshold. -/
def behEmergencyOnly : Behavior := fun engine_name block_type _ =>
  if engine_name = "mathpix" ∧ block_type = "formula" then
    Except.ok { text := "x+1", confidence := Rat.divInt 1 10 }
  else Except.error "engine raised"

/-- Adapter behaviour fixture: the primary formula engine answers with
non-compilable text at high confidence, the fallback with compilable text at
low confidence — neither is accepted, so best-effort selection decides. -/
def behMixedFormula : Behavior := fun engine_name block_type _ =>
  if engine_name = "pix2tex" ∧ block_type = "formula" then
    Except.ok { text := "a<b", confidence := Rat.divInt 9 10 }
  else if engine_name = "trocr" ∧ block_type = "formula" then
    Except.ok { text := "x+1", confidence := Rat.divInt 1 10 }
  else Except.error "engine raised"

/-- A concrete sealed attempt used to evaluate best-effort selection. -/
def attFix : OCRAttempt :=
  { engine := "pix2tex", attempt_number := 1, image_quality := "B"
    confidence := Rat.divInt 1 2, result := some "x+1", is_compilable := true, error := none }

/-! ### Basic facts about single attempts -/

theorem attempt_ocr_engine (engines : List String) (beh : Behavior)
    (engine_name image_path block_type quality_level : String) (n : Nat) :
    (attempt_ocr engines beh engine_name image_path block_type quality_level n).engine
      = engine_name := by
  unfold attempt_ocr
  split
  · split <;> rfl
  · rfl

theorem attempt_ocr_number (engines : List String) (beh : Behavior)
    (engine_name image_path block_type quality_level : String) (n : Nat) :
    (attempt_ocr engines beh engine_name image_path block_type quality_level n).attempt_number
      = n := by
  unfold attempt_ocr
  split
  · split <;> rfl
  · rfl

theorem attempt_ocr_quality (engines : List String) (beh : Behavior)
    (engine_name image_path block_type quality_level : String) (n : Nat) :
    (attempt_ocr engines beh engine_name image_path block_type quality_level n).image_quality
      = quality_level := by
  unfold attempt_ocr
  split
  · split <;> rfl
  · rfl

theorem sealFormula_engine (a : OCRAttempt) : (sealFormula a).engine = a.engine := rfl

theorem sealFormula_number (a : OCRAttempt) :
    (sealFormula a).attempt_number = a.attempt_number := rfl

theorem sealFormula_quality (a : OCRAttempt) :
    (sealFormula a).image_quality = a.image_quality := rfl

theorem sealFormula_compilable (a : OCRAttempt) :
    (sealFormula a).is_compilable = formulaCheck a := rfl

theorem formulaCheck_sealFormula (a : OCRAttempt) :
    formulaCheck (sealFormula a) = formulaCheck a := rfl

theorem sealed_flag_correct (a : OCRAttempt) :
    (sealFormula a).is_compilable = formulaCheck (sealFormula a) := rfl

/-! ### Attempt numbering -/

theorem numberedFrom_append_one :
    ∀ (l : List OCRAttempt) (k : Nat) (r : OCRAttempt),
      numberedFrom k l → r.attempt_number = k + l.length →
      numberedFrom k (l ++ [r]) := by
  intro l
  induction l with
  | nil => intro k r _ hr; exact ⟨by simpa using hr, trivial⟩
  | cons a rest ih =>
      intro k r hl hr
      exact ⟨hl.1, ih (k + 1) r hl.2 (by simpa [Nat.add_comm, Nat.add_assoc,
        Nat.add_left_comm] using hr)⟩

theorem numberedFrom_map_range' :
    ∀ (l : List OCRAttempt) (k : Nat), numberedFrom k l →
      l.map OCRAttempt.attempt_number = List.range' k l.length := by
  intro l
  induction l with
  | nil => intro k _; rfl
  | cons a rest ih =>
      intro k h
      simpa [List.range'_succ, h.1] using ih (k + 1) h.2

/-! ### Maximum-confidence selection (Python `max` with a key) -/

theorem foldl_max_mem :
    ∀ (rest : List OCRAttempt) (a : OCRAttempt),
      rest.foldl (fun best x => if best.confidence < x.confidence then x else best) a
        ∈ a :: rest := by
  intro rest
  induction rest with
  | nil => intro a; simp
  | cons x rest ih =>
      intro a
      simp only [List.foldl_cons]
      by_cases hc : a.confidence < x.confidence
      · rw [if_pos hc]
        exact List.mem_cons_of_mem a (ih x)
      · rw [if_neg hc]
        rcases List.mem_cons.mp (ih a) with h1 | h1
        · exact List.mem_cons.mpr (Or.inl h1)
        · exact List.mem_cons.mpr (Or.inr (List.mem_cons.mpr (Or.inr h1)))

theorem max_by_confidence_mem {l : List OCRAttempt} {a : OCRAttempt}
    (h : max_by_confidence l = some a) : a ∈ l := by
  cases l with
  | nil => simp [max_by_confidence] at h
  | cons x rest =>
      simp only [max_by_confidence, Option.some.injEq] at h
      subst h
      exact foldl_max_mem rest x

theorem max_by_confidence_isSome {l : List OCRAttempt} (h : l ≠ []) :
    ∃ a, max_by_confidence l = some a := by
  cases l with
  | nil => exact absurd rfl h
  | cons x rest => exact ⟨_, rfl⟩

theorem best_effort_formula_choice_mem {l : List OCRAttempt} {a : OCRAttempt}
    (h : best_effort_formula_choice l = some a) : a ∈ l := by
  unfold best_effort_formula_choice at h
  rcases hf : l.filter (fun a => a.is_compilable) with _ | ⟨x, rest⟩
  · rw [hf] at h
    exact max_by_confidence_mem h
  · rw [hf] at h
    have : a ∈ l.filter (fun a => a.is_compilable) := by
      rw [hf]; exact max_by_confidence_mem h
    exact List.mem_of_mem_filter this

theorem best_effort_formula_choice_isSome {l : List OCRAttempt} (h : l ≠ []) :
    ∃ a, best_effort_formula_choice l = some a := by
  rcases hf : l.filter (fun a => a.is_compilable) with _ | ⟨x, rest⟩
  · rcases max_by_confidence_isSome h with ⟨a, ha⟩
    exact ⟨a, by simp only [best_effort_formula_choice, hf]; exact ha⟩
  · rcases max_by_confidence_isSome (l := x :: rest) (by simp) with ⟨a, ha⟩
    exact ⟨a, by simp only [best_effort_formula_choice, hf]; exact ha⟩

/-! ### FALLBACKS loop invariants, text cascade -/

theorem text_fallbacks_spec (s : Settings) (engines : List String) (beh : Behavior)
    (image_path quality_level : String) (fb : List String) :
    ∀ (attempts : List OCRAttempt) (stats : UsageStats),
      (∃ suf,
        (text_fallbacks s engines beh image_path quality_level fb attempts stats).2.1
          = attempts ++ suf
        ∧ ((text_fallbacks s engines beh image_path quality_level fb attempts stats).1 = none →
            ∀ a ∈ suf, text_accept s a = false))
      ∧ ((text_fallbacks s engines beh image_path quality_level fb attempts stats).2.2.total_requests
            = stats.total_requests
        ∧ (text_fallbacks s engines beh image_path quality_level fb attempts stats).2.2.successful_requests
            = stats.successful_requests
        ∧ (text_fallbacks s engines beh image_path quality_level fb attempts stats).2.2.emergency_usage
            = stats.emergency_usage
        ∧ (text_fallbacks s engines beh image_path quality_level fb attempts stats).2.2.mathpix_daily_usage
            = stats.mathpix_daily_usage)
      ∧ (numberedFrom 1 attempts →
          numberedFrom 1 (text_fallbacks s engines beh image_path quality_level fb attempts stats).2.1)
      ∧ (∀ res,
          (text_fallbacks s engines beh image_path quality_level fb attempts stats).1 = some res →
          ∃ pre a,
            (text_fallbacks s engines beh image_path quality_level fb attempts stats).2.1
              = pre ++ [a]
            ∧ (∀ b ∈ pre, b ∈ attempts ∨ text_accept s b = false)
            ∧ text_accept s a = true
            ∧ res = mkOCRResult (a.result.getD "") a.confidence a.engine (pre ++ [a])
                true false) := by
  induction fb with
  | nil =>
      intro attempts stats
      refine ⟨⟨[], by simp [text_fallbacks], ?_⟩, by simp [text_fallbacks], ?_, ?_⟩
      · intro _ a ha
        simp at ha
      · intro h
        simpa [text_fallbacks] using h
      · intro res h
        simp [text_fallbacks] at h
  | cons e rest ih =>
      intro attempts stats
      simp only [text_fallbacks]
      split
      · -- e ∈ engines: one fallback attempt is recorded
        split
        · -- accepted at this fallback engine
          next hacc =>
          refine ⟨⟨[attempt_ocr engines beh e image_path "text" quality_level
              (attempts.length + 1)], rfl, ?_⟩, ⟨rfl, rfl, rfl, rfl⟩, ?_, ?_⟩
          · intro h
            simp at h
          · intro hnum
            exact numberedFrom_append_one _ 1 _ hnum
              (by rw [attempt_ocr_number]; exact Nat.add_comm _ _)
          · intro res hres
            refine ⟨attempts, attempt_ocr engines beh e image_path "text" quality_level
              (attempts.length + 1), rfl, fun b hb => Or.inl hb, hacc, ?_⟩
            rw [attempt_ocr_engine]
            simp only [Option.some.injEq] at hres
            exact hres.symm
        · -- not accepted: recurse on the remaining fallbacks
          next hacc =>
          have hacc' : text_accept s (attempt_ocr engines beh e image_path "text"
              quality_level (attempts.length + 1)) = false := by
            exact Bool.not_eq_true _ |>.mp hacc
          obtain ⟨⟨suf', hsuf', hfail'⟩, hframe, hnum, hsome⟩ :=
            ih (attempts ++ [attempt_ocr engines beh e image_path "text" quality_level
              (attempts.length + 1)]) stats
          refine ⟨⟨attempt_ocr engines beh e image_path "text" quality_level
              (attempts.length + 1) :: suf', ?_, ?_⟩, hframe, ?_, ?_⟩
          · rw [hsuf', List.append_assoc]
            rfl
          · intro hnone a ha
            rcases List.mem_cons.mp ha with h1 | h1
            · rw [h1]
              exact hacc'
            · exact hfail' hnone a h1
          · intro h1
            exact hnum (numberedFrom_append_one _ 1 _ h1
              (by rw [attempt_ocr_number]; exact Nat.add_comm _ _))
          · intro res h
            obtain ⟨pre, a, h2, h3, h4, h5⟩ := hsome res h
            refine ⟨pre, a, h2, ?_, h4, h5⟩
            intro b hb
            rcases h3 b hb with h6 | h6
            · rcases List.mem_append.mp h6 with h7 | h7
              · exact Or.inl h7
              · refine Or.inr ?_
                rw [List.mem_singleton.mp h7]
                exact hacc'
            · exact Or.inr h6
      · -- e not in the registry: skipped without an attempt
        exact ih attempts stats

/-! ### FALLBACKS loop invariants, formula cascade -/

theorem formula_fallbacks_spec (s : Settings) (engines : List String) (beh : Behavior)
    (image_path quality_level : String) (fb : List String) :
    ∀ (attempts : List OCRAttempt) (stats : UsageStats),
      (∃ suf,
        (formula_fallbacks s engines beh image_path quality_level fb attempts stats).2.1
          = attempts ++ suf
        ∧ ((formula_fallbacks s engines beh image_path quality_level fb attempts stats).1 = none →
            ∀ a ∈ suf, formula_accept s a = false))
      ∧ ((formula_fallbacks s engines beh image_path quality_level fb attempts stats).2.2.total_requests
            = stats.total_requests
        ∧ (formula_fallbacks s engines beh image_path quality_level fb attempts stats).2.2.successful_requests
            = stats.successful_requests
        ∧ (formula_fallbacks s engines beh image_path quality_level fb attempts stats).2.2.emergency_usage
            = stats.emergency_usage
        ∧ (formula_fallbacks s engines beh image_path quality_level fb attempts stats).2.2.mathpix_daily_usage
            = stats.mathpix_daily_usage)
      ∧ (numberedFrom 1 attempts →
          numberedFrom 1 (formula_fallbacks s engines beh image_path quality_level fb attempts stats).2.1)
      ∧ ((∀ a ∈ attempts, a.is_compilable = formulaCheck a) →
          ∀ a ∈ (formula_fallbacks s engines beh image_path quality_level fb attempts stats).2.1,
            a.is_compilable = formulaCheck a)
      ∧ (∀ res,
          (formula_fallbacks s engines beh image_path quality_level fb attempts stats).1 = some res →
          ∃ pre a,
            (formula_fallbacks s engines beh image_path quality_level fb attempts stats).2.1
              = pre ++ [a]
            ∧ (∀ b ∈ pre, b ∈ attempts ∨ formula_accept s b = false)
            ∧ formula_accept s a = true
            ∧ res = mkOCRResult (a.result.getD "") a.confidence a.engine (pre ++ [a])
                true true) := by
  induction fb with
  | nil =>
      intro attempts stats
      refine ⟨⟨[], by simp [formula_fallbacks], ?_⟩, by simp [formula_fallbacks], ?_, ?_, ?_⟩
      · intro _ a ha
        simp at ha
      · intro h
        simpa [formula_fallbacks] using h
      · intro h
        simpa [formula_fallbacks] using h
      · intro res h
        simp [formula_fallbacks] at h
  | cons e rest ih =>
      intro attempts stats
      simp only [formula_fallbacks]
      split
      · -- e ∈ engines: one sealed fallback attempt is recorded
        split
        · -- accepted at this fallback engine
          next hacc =>
          refine ⟨⟨[sealFormula (attempt_ocr engines beh e image_path "formula" quality_level
              (attempts.length + 1))], rfl, ?_⟩, ⟨rfl, rfl, rfl, rfl⟩, ?_, ?_, ?_⟩
          · intro h
            simp at h
          · intro hnum
            exact numberedFrom_append_one _ 1 _ hnum
              (by rw [sealFormula_number, attempt_ocr_number]; exact Nat.add_comm _ _)
          · intro hflags a ha
            rcases List.mem_append.mp ha with h1 | h1
            · exact hflags a h1
            · rw [List.mem_singleton.mp h1]
              exact sealed_flag_correct _
          · intro res hres
            refine ⟨attempts, sealFormula (attempt_ocr engines beh e image_path "formula"
              quality_level (attempts.length + 1)), rfl, fun b hb => Or.inl hb, hacc, ?_⟩
            rw [sealFormula_engine, attempt_ocr_engine]
            simp only [Option.some.injEq] at hres
            exact hres.symm
        · -- not accepted: recurse on the remaining fallbacks
          next hacc =>
          have hacc' : formula_accept s (sealFormula (attempt_ocr engines beh e image_path
              "formula" quality_level (attempts.length + 1))) = false := by
            exact Bool.not_eq_true _ |>.mp hacc
          obtain ⟨⟨suf', hsuf', hfail'⟩, hframe, hnum, hflg, hsome⟩ :=
            ih (attempts ++ [sealFormula (attempt_ocr engines beh e image_path "formula"
              quality_level (attempts.length + 1))]) stats
          refine ⟨⟨sealFormula (attempt_ocr engines beh e image_path "formula" quality_level
              (attempts.length + 1)) :: suf', ?_, ?_⟩, hframe, ?_, ?_, ?_⟩
          · rw [hsuf', List.append_assoc]
            rfl
          · intro hnone a ha
            rcases List.mem_cons.mp ha with h1 | h1
            · rw [h1]
              exact hacc'
            · exact hfail' hnone a h1
          · intro h1
            exact hnum (numberedFrom_append_one _ 1 _ h1
              (by rw [sealFormula_number, attempt_ocr_number]; exact Nat.add_comm _ _))
          · intro hflags
            refine hflg ?_
            intro a ha
            rcases List.mem_append.mp ha with h1 | h1
            · exact hflags a h1
            · rw [List.mem_singleton.mp h1]
              exact sealed_flag_correct _
          · intro res h
            obtain ⟨pre, a, h2, h3, h4, h5⟩ := hsome res h
            refine ⟨pre, a, h2, ?_, h4, h5⟩
            intro b hb
            rcases h3 b hb with h6 | h6
            · rcases List.mem_append.mp h6 with h7 | h7
              · exact Or.inl h7
              · refine Or.inr ?_
                rw [List.mem_singleton.mp h7]
                exact hacc'
            · exact Or.inr h6
      · -- e not in the registry: skipped without an attempt
        exact ih attempts stats

/-! ### EMERGENCY tier and best-effort selection -/

theorem emergency_available_iff (s : Settings) (ec : EngineConfig)
    (engines : List String) (stats : UsageStats) :
    emergency_available s ec engines stats = true ↔
      ∃ em, ec.formula_emergency = some em ∧ em ≠ "" ∧ em ∈ engines
        ∧ stats.mathpix_daily_usage < s.mathpix_daily_limit := by
  unfold emergency_available
  rcases ec.formula_emergency with _ | em
  · simp
  · simp [Bool.and_eq_true, and_assoc]

theorem best_effort_text_spec (attempts : List OCRAttempt) (h : attempts ≠ []) :
    ∃ a, max_by_confidence attempts = some a ∧ a ∈ attempts ∧
      best_effort_text attempts
        = mkOCRResult (a.result.getD "") a.confidence a.engine attempts false false := by
  obtain ⟨a, ha⟩ := max_by_confidence_isSome h
  exact ⟨a, ha, max_by_confidence_mem ha, by rw [best_effort_text, ha]⟩

theorem best_effort_formula_spec (attempts : List OCRAttempt) (h : attempts ≠ []) :
    ∃ a, best_effort_formula_choice attempts = some a ∧ a ∈ attempts ∧
      best_effort_formula attempts
        = mkOCRResult (a.result.getD "") a.confidence a.engine attempts
            a.is_compilable a.is_compilable := by
  obtain ⟨a, ha⟩ := best_effort_formula_choice_isSome h
  exact ⟨a, ha, best_effort_formula_choice_mem ha, by rw [best_effort_formula, ha]⟩

theorem formula_emergency_spec_off (s : Settings) (ec : EngineConfig)
    (engines : List String) (beh : Behavior) (image_path : String)
    (attempts : List OCRAttempt) (stats : UsageStats)
    (h : emergency_available s ec engines stats = false) :
    formula_emergency_and_best_effort s ec engines beh image_path attempts stats
      = (best_effort_formula attempts, stats) := by
  rw [formula_emergency_and_best_effort, h]
  simp

theorem formula_emergency_spec_on (s : Settings) (ec : EngineConfig)
    (engines : List String) (beh : Behavior) (image_path : String)
    (attempts : List OCRAttempt) (stats : UsageStats)
    (h : emergency_available s ec engines stats = true) :
    (formula_emergency_and_best_effort s ec engines beh image_path attempts stats).2
      = { stats with mathpix_daily_usage := stats.mathpix_daily_usage + 1
                     emergency_usage := stats.emergency_usage + 1 }
    ∧ ((sealFormula (attempt_ocr engines beh (ec.formula_emergency.getD "") image_path
          "formula" "A" (attempts.length + 1))).is_compilable = true →
        (formula_emergency_and_best_effort s ec engines beh image_path attempts stats).1
          = mkOCRResult ((sealFormula (attempt_ocr engines beh (ec.formula_emergency.getD "")
              image_path "formula" "A" (attempts.length + 1))).result.getD "")
            (sealFormula (attempt_ocr engines beh (ec.formula_emergency.getD "") image_path
              "formula" "A" (attempts.length + 1))).confidence
            (ec.formula_emergency.getD "")
            (attempts ++ [sealFormula (attempt_ocr engines beh (ec.formula_emergency.getD "")
              image_path "formula" "A" (attempts.length + 1))]) true true)
    ∧ ((sealFormula (attempt_ocr engines beh (ec.formula_emergency.getD "") image_path
          "formula" "A" (attempts.length + 1))).is_compilable = false →
        (formula_emergency_and_best_effort s ec engines beh image_path attempts stats).1
          = best_effort_formula (attempts ++ [sealFormula (attempt_ocr engines beh
              (ec.formula_emergency.getD "") image_path "formula" "A"
              (attempts.length + 1))])) := by
  rw [formula_emergency_and_best_effort, h]
  simp only [if_true]
  by_cases hc : (sealFormula (attempt_ocr engines beh (ec.formula_emergency.getD "")
      image_path "formula" "A" (attempts.length + 1))).is_compilable = true
  · rw [if_pos hc]
    refine ⟨rfl, fun _ => rfl, fun hc' => ?_⟩
    rw [hc] at hc'
    exact absurd hc' (by simp)
  · rw [if_neg hc]
    refine ⟨rfl, fun hc' => absurd hc' hc, fun _ => rfl⟩

/-! ### Statistics behaviour of the fallback loops -/

theorem text_fallbacks_stats (s : Settings) (engines : List String) (beh : Behavior)
    (image_path quality_level : String) (fb : List String) :
    ∀ (attempts : List OCRAttempt) (stats : UsageStats),
      ((text_fallbacks s engines beh image_path quality_level fb attempts stats).1 = none →
        (text_fallbacks s engines beh image_path quality_level fb attempts stats).2.2 = stats)
      ∧ (∀ res,
          (text_fallbacks s engines beh image_path quality_level fb attempts stats).1 = some res →
          (text_fallbacks s engines beh image_path quality_level fb attempts stats).2.2
            = { stats with fallback_usage := stats.fallback_usage + 1 }) := by
  induction fb with
  | nil =>
      intro attempts stats
      constructor
      · intro _
        rfl
      · intro res h
        simp [text_fallbacks] at h
  | cons e rest ih =>
      intro attempts stats
      simp only [text_fallbacks]
      split
      · split
        · constructor
          · intro h
            simp at h
          · intro res _
            rfl
        · exact ih _ stats
      · exact ih attempts stats

theorem formula_fallbacks_stats (s : Settings) (engines : List String) (beh : Behavior)
    (image_path quality_level : String) (fb : List String) :
    ∀ (attempts : List OCRAttempt) (stats : UsageStats),
      ((formula_fallbacks s engines beh image_path quality_level fb attempts stats).1 = none →
        (formula_fallbacks s engines beh image_path quality_level fb attempts stats).2.2 = stats)
      ∧ (∀ res,
          (formula_fallbacks s engines beh image_path quality_level fb attempts stats).1 = some res →
          (formula_fallbacks s engines beh image_path quality_level fb attempts stats).2.2
            = { stats with fallback_usage := stats.fallback_usage + 1 }) := by
  induction fb with
  | nil =>
      intro attempts stats
      constructor
      · intro _
        rfl
      · intro res h
        simp [formula_fallbacks] at h
  | cons e rest ih =>
      intro attempts stats
      simp only [formula_fallbacks]
      split
      · split
        · constructor
          · intro h
            simp at h
          · intro res _
            rfl
        · exact ih _ stats
      · exact ih attempts stats

/-! ### Projection lemmas for constructed results -/

@[simp] theorem attemptedOCRResult_text (t : String) (c : ℚ) (e : String)
    (l : List OCRAttempt) (su co : Bool) : (attemptedOCRResult t c e l su co).text = t := rfl

@[simp] theorem attemptedOCRResult_confidence (t : String) (c : ℚ) (e : String)
    (l : List OCRAttempt) (su co : Bool) :
    (attemptedOCRResult t c e l su co).confidence = c := rfl

@[simp] theorem attemptedOCRResult_confidence_level (t : String) (c : ℚ) (e : String)
    (l : List OCRAttempt) (su co : Bool) :
    (attemptedOCRResult t c e l su co).confidence_level = ConfidenceLevel.low := rfl

@[simp] theorem attemptedOCRResult_engine_used (t : String) (c : ℚ) (e : String)
    (l : List OCRAttempt) (su co : Bool) :
    (attemptedOCRResult t c e l su co).engine_used = e := rfl

@[simp] theorem attemptedOCRResult_attempts (t : String) (c : ℚ) (e : String)
    (l : List OCRAttempt) (su co : Bool) :
    (attemptedOCRResult t c e l su co).attempts = l := rfl

@[simp] theorem attemptedOCRResult_is_successful (t : String) (c : ℚ) (e : String)
    (l : List OCRAttempt) (su co : Bool) :
    (attemptedOCRResult t c e l su co).is_successful = su := rfl

@[simp] theorem attemptedOCRResult_is_compilable (t : String) (c : ℚ) (e : String)
    (l : List OCRAttempt) (su co : Bool) :
    (attemptedOCRResult t c e l su co).is_compilable = co := rfl

@[simp] theorem mkOCRResult_fields (t : String) (c : ℚ) (e : String)
    (l : List OCRAttempt) (su co : Bool) :
    (mkOCRResult t c e l su co).fields = attemptedOCRResult t c e l su co := by
  unfold mkOCRResult
  split <;> rfl

@[simp] theorem mkOCRResult_raised (t : String) (c : ℚ) (e : String)
    (l : List OCRAttempt) (su co : Bool) :
    (mkOCRResult t c e l su co).raised = !l.isEmpty := by
  unfold mkOCRResult
  split
  · next h => simp [Except.raised, h]
  · next h => simp [Except.raised, Bool.not_eq_true] at h ⊢
              simp [h]

theorem raised_mk_of_ne {t : String} {c : ℚ} {e : String} {l : List OCRAttempt}
    {su co : Bool} (h : l ≠ []) : (mkOCRResult t c e l su co).raised = true := by
  rw [mkOCRResult_raised]
  cases l with
  | nil => exact absurd rfl h
  | cons x xs => rfl

/-! ### Master lemma for the text cascade -/

theorem process_text_block_spec (s : Settings) (ec : EngineConfig)
    (engines : List String) (beh : Behavior) (image_path quality_level : String)
    (stats : UsageStats) :
    (process_text_block s ec engines beh image_path quality_level stats).1.fields.attempts ≠ []
    ∧ numberedFrom 1 (process_text_block s ec engines beh image_path quality_level stats).1.fields.attempts
    ∧ (∀ a ∈ (process_text_block s ec engines beh image_path quality_level stats).1.fields.attempts.dropLast,
        text_accept s a = false)
    ∧ ((process_text_block s ec engines beh image_path quality_level stats).1.fields.is_successful = true →
        ∃ a, (process_text_block s ec engines beh image_path quality_level stats).1.fields.attempts.getLast?
            = some a
          ∧ text_accept s a = true
          ∧ (process_text_block s ec engines beh image_path quality_level stats).1.fields.engine_used = a.engine
          ∧ (process_text_block s ec engines beh image_path quality_level stats).1.fields.text = a.result.getD ""
          ∧ (process_text_block s ec engines beh image_path quality_level stats).1.fields.confidence = a.confidence)
    ∧ ((process_text_block s ec engines beh image_path quality_level stats).1.fields.is_successful = false →
        ∃ a, max_by_confidence
            (process_text_block s ec engines beh image_path quality_level stats).1.fields.attempts = some a
          ∧ (process_text_block s ec engines beh image_path quality_level stats).1.fields.engine_used = a.engine
          ∧ (process_text_block s ec engines beh image_path quality_level stats).1.fields.text = a.result.getD ""
          ∧ (process_text_block s ec engines beh image_path quality_level stats).1.fields.confidence = a.confidence)
    ∧ ((process_text_block s ec engines beh image_path quality_level stats).2 = stats
        ∨ ((process_text_block s ec engines beh image_path quality_level stats).2
              = { stats with fallback_usage := stats.fallback_usage + 1 }
            ∧ (process_text_block s ec engines beh image_path quality_level stats).1.fields.is_successful
              = true))
    ∧ (process_text_block s ec engines beh image_path quality_level stats).1.fields.confidence_level
        = ConfidenceLevel.low
    ∧ (process_text_block s ec engines beh image_path quality_level stats).1.raised = true := by
  unfold process_text_block
  by_cases hacc1 : text_accept s (attempt_ocr engines beh ec.text_primary image_path "text"
      quality_level 1) = true
  · rw [if_pos hacc1]
    refine ⟨by simp, ⟨attempt_ocr_number _ _ _ _ _ _ _, trivial⟩, by simp, ?_, ?_,
      Or.inl rfl, by simp, ?_⟩
    · intro _
      exact ⟨_, rfl, hacc1, by simp [attempt_ocr_engine], by simp, by simp⟩
    · intro h
      simp at h
    · dsimp only
      apply raised_mk_of_ne
      simp
  · rw [if_neg hacc1]
    have hacc1' : text_accept s (attempt_ocr engines beh ec.text_primary image_path "text"
        quality_level 1) = false := Bool.not_eq_true _ |>.mp hacc1
    have hnum1 : numberedFrom 1 [attempt_ocr engines beh ec.text_primary image_path "text"
        quality_level 1] := ⟨attempt_ocr_number _ _ _ _ _ _ _, trivial⟩
    obtain ⟨⟨suf, hsuf, hfail⟩, hframe, hnum, hsome⟩ :=
      text_fallbacks_spec s engines beh image_path quality_level ec.text_fallback
        [attempt_ocr engines beh ec.text_primary image_path "text" quality_level 1] stats
    obtain ⟨hstN, hstS⟩ :=
      text_fallbacks_stats s engines beh image_path quality_level ec.text_fallback
        [attempt_ocr engines beh ec.text_primary image_path "text" quality_level 1] stats
    split
    · -- a fallback engine accepted
      next out_ x st2 heq =>
      rw [heq] at hsome hstS hnum hsuf
      obtain ⟨pre, a, h2, h3, h4, h5⟩ := hsome out_ rfl
      have hst2 : st2 = { stats with fallback_usage := stats.fallback_usage + 1 } :=
        hstS out_ rfl
      have hatt : out_.fields.attempts = pre ++ [a] := by rw [h5]; simp
      refine ⟨?_, ?_, ?_, ?_, ?_, ?_, ?_, ?_⟩
      · simp [hatt]
      · simp only []
        rw [hatt, ← h2]
        exact hnum hnum1
      · intro b hb
        rw [hatt, List.dropLast_concat] at hb
        rcases h3 b hb with h6 | h6
        · rw [List.mem_singleton.mp h6]
          exact hacc1'
        · exact h6
      · intro _
        refine ⟨a, ?_, h4, ?_, ?_, ?_⟩
        · rw [hatt]
          exact List.getLast?_concat _
        · rw [h5]
          simp
        · rw [h5]
          simp
        · rw [h5]
          simp
      · intro hfalse
        rw [h5] at hfalse
        simp at hfalse
      · refine Or.inr ⟨hst2, ?_⟩
        rw [h5]
        simp
      · rw [h5]
        simp
      · dsimp only
        rw [h5]
        apply raised_mk_of_ne
        simp
    · -- no fallback accepted
      next att2 st2 heq =>
      rw [heq] at hsuf hfail hnum hstN
      dsimp only at hsuf hfail hnum hstN
      have hst2 : st2 = stats := hstN rfl
      have hfail2 : ∀ b ∈ att2, text_accept s b = false := by
        intro b hb
        rw [hsuf] at hb
        rcases List.mem_append.mp hb with h6 | h6
        · rw [List.mem_singleton.mp h6]
          exact hacc1'
        · exact hfail rfl b h6
      have hnum2 : numberedFrom 1 att2 := hnum hnum1
      have hne2 : att2 ≠ [] := by
        rw [hsuf]
        simp
      split
      · -- QUALITY_RETRY: primary engine again at tier "A"
        by_cases haccr : text_accept s (attempt_ocr engines beh ec.text_primary image_path
            "text" "A" (att2.length + 1)) = true
        · rw [if_pos haccr]
          refine ⟨by simp, ?_, ?_, ?_, ?_, Or.inl hst2, by simp, ?_⟩
          · simp only [mkOCRResult_fields, attemptedOCRResult_attempts]
            exact numberedFrom_append_one _ 1 _ hnum2
              (by rw [attempt_ocr_number]; exact Nat.add_comm _ _)
          · intro b hb
            simp only [mkOCRResult_fields, attemptedOCRResult_attempts, List.dropLast_concat] at hb
            exact hfail2 b hb
          · intro _
            refine ⟨_, ?_, haccr, by simp [attempt_ocr_engine], by simp, by simp⟩
            simp only [mkOCRResult_fields, attemptedOCRResult_attempts]
            exact List.getLast?_concat _
          · intro h
            simp at h
          · dsimp only
            apply raised_mk_of_ne
            simp
        · rw [if_neg haccr]
          have haccr' : text_accept s (attempt_ocr engines beh ec.text_primary image_path
              "text" "A" (att2.length + 1)) = false := Bool.not_eq_true _ |>.mp haccr
          obtain ⟨a, hmax, hmem, hbe⟩ := best_effort_text_spec
            (att2 ++ [attempt_ocr engines beh ec.text_primary image_path "text" "A"
              (att2.length + 1)]) (by simp)
          refine ⟨?_, ?_, ?_, ?_, ?_, Or.inl hst2, ?_, ?_⟩
          · rw [hbe]
            simp
          · rw [hbe]
            simp only [mkOCRResult_fields, attemptedOCRResult_attempts]
            exact numberedFrom_append_one _ 1 _ hnum2
              (by rw [attempt_ocr_number]; exact Nat.add_comm _ _)
          · intro b hb
            rw [hbe] at hb
            simp only [mkOCRResult_fields, attemptedOCRResult_attempts, List.dropLast_concat] at hb
            exact hfail2 b hb
          · intro h
            rw [hbe] at h
            simp at h
          · intro _
            refine ⟨a, ?_, ?_, ?_, ?_⟩
            · rw [hbe]
              simpa using hmax
            · rw [hbe]
              simp
            · rw [hbe]
              simp
            · rw [hbe]
              simp
          · rw [hbe]
            simp
          · dsimp only
            rw [hbe]
            apply raised_mk_of_ne
            simp
      · -- quality tier already "A": straight to best effort
        obtain ⟨a, hmax, hmem, hbe⟩ := best_effort_text_spec att2 hne2
        refine ⟨?_, ?_, ?_, ?_, ?_, Or.inl hst2, ?_, ?_⟩
        · rw [hbe]
          simpa using hne2
        · rw [hbe]
          simpa using hnum2
        · intro b hb
          rw [hbe] at hb
          simp only [mkOCRResult_fields, attemptedOCRResult_attempts] at hb
          exact hfail2 b ((List.dropLast_sublist att2).subset hb)
        · intro h
          rw [hbe] at h
          simp at h
        · intro _
          refine ⟨a, ?_, ?_, ?_, ?_⟩
          · rw [hbe]
            simpa using hmax
          · rw [hbe]
            simp
          · rw [hbe]
            simp
          · rw [hbe]
            simp
        · rw [hbe]
          simp
        · dsimp only
          rw [hbe]
          exact raised_mk_of_ne hne2

/-! ### Master lemma for the EMERGENCY tier plus best-effort tail -/

theorem formula_tail_spec (s : Settings) (ec : EngineConfig) (engines : List String)
    (beh : Behavior) (image_path : String) (attempts : List OCRAttempt)
    (stats : UsageStats) (hne : attempts ≠ []) (hnum : numberedFrom 1 attempts)
    (hflags : ∀ a ∈ attempts, a.is_compilable = formulaCheck a)
    (hfail : ∀ a ∈ attempts, formula_accept s a = false) :
    (formula_emergency_and_best_effort s ec engines beh image_path attempts stats).1.fields.attempts ≠ []
    ∧ numberedFrom 1
        (formula_emergency_and_best_effort s ec engines beh image_path attempts stats).1.fields.attempts
    ∧ (∀ a ∈ (formula_emergency_and_best_effort s ec engines beh image_path attempts stats).1.fields.attempts,
        a.is_compilable = formulaCheck a)
    ∧ (∀ a ∈ (formula_emergency_and_best_effort s ec engines beh image_path attempts
          stats).1.fields.attempts.dropLast, formula_accept s a = false)
    ∧ ((∃ a, (formula_emergency_and_best_effort s ec engines beh image_path attempts
            stats).1.fields.attempts.getLast? = some a
          ∧ a.is_compilable = true
          ∧ (formula_emergency_and_best_effort s ec engines beh image_path attempts
              stats).1.fields.engine_used = a.engine
          ∧ (formula_emergency_and_best_effort s ec engines beh image_path attempts
              stats).1.fields.text = a.result.getD ""
          ∧ (formula_emergency_and_best_effort s ec engines beh image_path attempts
              stats).1.fields.confidence = a.confidence
          ∧ (formula_emergency_and_best_effort s ec engines beh image_path attempts
              stats).1.fields.is_successful = true
          ∧ (formula_emergency_and_best_effort s ec engines beh image_path attempts
              stats).1.fields.is_compilable = true)
      ∨ (∃ a, best_effort_formula_choice
            (formula_emergency_and_best_effort s ec engines beh image_path attempts
              stats).1.fields.attempts = some a
          ∧ (formula_emergency_and_best_effort s ec engines beh image_path attempts
              stats).1.fields.engine_used = a.engine
          ∧ (formula_emergency_and_best_effort s ec engines beh image_path attempts
              stats).1.fields.text = a.result.getD ""
          ∧ (formula_emergency_and_best_effort s ec engines beh image_path attempts
              stats).1.fields.confidence = a.confidence
          ∧ (formula_emergency_and_best_effort s ec engines beh image_path attempts
              stats).1.fields.is_successful = a.is_compilable
          ∧ (formula_emergency_and_best_effort s ec engines beh image_path attempts
              stats).1.fields.is_compilable = a.is_compilable))
    ∧ ((formula_emergency_and_best_effort s ec engines beh image_path attempts stats).2 = stats
      ∨ ((formula_emergency_and_best_effort s ec engines beh image_path attempts stats).2
            = { stats with mathpix_daily_usage := stats.mathpix_daily_usage + 1
                           emergency_usage := stats.emergency_usage + 1 }
          ∧ emergency_available s ec engines stats = true
          ∧ ∃ em, ec.formula_emergency = some em
              ∧ ∃ last, (formula_emergency_and_best_effort s ec engines beh image_path attempts
                    stats).1.fields.attempts.getLast? = some last
                  ∧ last.engine = em ∧ last.image_quality = "A"))
    ∧ (formula_emergency_and_best_effort s ec engines beh image_path attempts
        stats).1.fields.confidence_level = ConfidenceLevel.low
    ∧ (formula_emergency_and_best_effort s ec engines beh image_path attempts
        stats).1.fields.is_successful
      = (formula_emergency_and_best_effort s ec engines beh image_path attempts
          stats).1.fields.is_compilable
    ∧ (formula_emergency_and_best_effort s ec engines beh image_path attempts
        stats).1.raised = true := by
  by_cases hav : emergency_available s ec engines stats = true
  · obtain ⟨hstats, hpos, hneg⟩ :=
      formula_emergency_spec_on s ec engines beh image_path attempts stats hav
    obtain ⟨em, hem, hemne, hemmem, hemlt⟩ := (emergency_available_iff s ec engines stats).mp hav
    cases hflag : (sealFormula (attempt_ocr engines beh (ec.formula_emergency.getD "")
        image_path "formula" "A" (attempts.length + 1))).is_compilable with
    | true =>
        have hres := hpos hflag
        refine ⟨?_, ?_, ?_, ?_, ?_, ?_, ?_, ?_, ?_⟩
        · rw [hres]
          simp
        · rw [hres]
          simp only [mkOCRResult_fields, attemptedOCRResult_attempts]
          exact numberedFrom_append_one _ 1 _ hnum
            (by rw [sealFormula_number, attempt_ocr_number]; exact Nat.add_comm _ _)
        · rw [hres]
          simp only [mkOCRResult_fields, attemptedOCRResult_attempts]
          intro a ha
          rcases List.mem_append.mp ha with h1 | h1
          · exact hflags a h1
          · rw [List.mem_singleton.mp h1]
            exact sealed_flag_correct _
        · rw [hres]
          simp only [mkOCRResult_fields, attemptedOCRResult_attempts, List.dropLast_concat]
          exact hfail
        · refine Or.inl ⟨_, ?_, hflag, ?_, ?_, ?_, ?_, ?_⟩
          · rw [hres]
            simp only [mkOCRResult_fields, attemptedOCRResult_attempts]
            exact List.getLast?_concat _
          · rw [hres]
            rw [hem]
            simp [sealFormula_engine, attempt_ocr_engine]
          · rw [hres]
            simp
          · rw [hres]
            simp
          · rw [hres]
            simp
          · rw [hres]
            simp
        · refine Or.inr ⟨hstats, hav, em, hem,
            sealFormula (attempt_ocr engines beh (ec.formula_emergency.getD "")
              image_path "formula" "A" (attempts.length + 1)), ?_, ?_, ?_⟩
          · rw [hres]
            simp only [mkOCRResult_fields, attemptedOCRResult_attempts]
            exact List.getLast?_concat _
          · rw [sealFormula_engine, attempt_ocr_engine, hem]
            rfl
          · rw [sealFormula_quality, attempt_ocr_quality]
        · rw [hres]
          simp
        · rw [hres]
          simp
        · rw [hres]
          apply raised_mk_of_ne
          simp
    | false =>
        have hres := hneg hflag
        obtain ⟨a, hmax, hmem, hbe⟩ := best_effort_formula_spec
          (attempts ++ [sealFormula (attempt_ocr engines beh (ec.formula_emergency.getD "")
            image_path "formula" "A" (attempts.length + 1))]) (by simp)
        rw [hbe] at hres
        refine ⟨?_, ?_, ?_, ?_, ?_, ?_, ?_, ?_, ?_⟩
        · rw [hres]
          simp
        · rw [hres]
          simp only [mkOCRResult_fields, attemptedOCRResult_attempts]
          exact numberedFrom_append_one _ 1 _ hnum
            (by rw [sealFormula_number, attempt_ocr_number]; exact Nat.add_comm _ _)
        · rw [hres]
          simp only [mkOCRResult_fields, attemptedOCRResult_attempts]
          intro b hb
          rcases List.mem_append.mp hb with h1 | h1
          · exact hflags b h1
          · rw [List.mem_singleton.mp h1]
            exact sealed_flag_correct _
        · rw [hres]
          simp only [mkOCRResult_fields, attemptedOCRResult_attempts, List.dropLast_concat]
          exact hfail
        · refine Or.inr ⟨a, ?_, ?_, ?_, ?_, ?_, ?_⟩
          · rw [hres]
            simp only [mkOCRResult_fields, attemptedOCRResult_attempts]
            exact hmax
          · rw [hres]
            simp
          · rw [hres]
            simp
          · rw [hres]
            simp
          · rw [hres]
            simp
          · rw [hres]
            simp
        · refine Or.inr ⟨hstats, hav, em, hem,
            sealFormula (attempt_ocr engines beh (ec.formula_emergency.getD "")
              image_path "formula" "A" (attempts.length + 1)), ?_, ?_, ?_⟩
          · rw [hres]
            simp only [mkOCRResult_fields, attemptedOCRResult_attempts]
            exact List.getLast?_concat _
          · rw [sealFormula_engine, attempt_ocr_engine, hem]
            rfl
          · rw [sealFormula_quality, attempt_ocr_quality]
        · rw [hres]
          simp
        · rw [hres]
          simp
        · rw [hres]
          apply raised_mk_of_ne
          simp
  · have hav' : emergency_available s ec engines stats = false :=
      Bool.not_eq_true _ |>.mp hav
    have hres := formula_emergency_spec_off s ec engines beh image_path attempts stats hav'
    obtain ⟨a, hmax, hmem, hbe⟩ := best_effort_formula_spec attempts hne
    rw [hres]
    refine ⟨?_, ?_, ?_, ?_, ?_, Or.inl rfl, ?_, ?_, ?_⟩
    · rw [hbe]
      simpa using hne
    · rw [hbe]
      simpa using hnum
    · rw [hbe]
      simpa using hflags
    · rw [hbe]
      simp only [mkOCRResult_fields, attemptedOCRResult_attempts]
      intro b hb
      exact hfail b ((List.dropLast_sublist attempts).subset hb)
    · refine Or.inr ⟨a, ?_, ?_, ?_, ?_, ?_, ?_⟩
      · rw [hbe]
        simp only [mkOCRResult_fields, attemptedOCRResult_attempts]
        exact hmax
      · rw [hbe]
        simp
      · rw [hbe]
        simp
      · rw [hbe]
        simp
      · rw [hbe]
        simp
      · rw [hbe]
        simp
    · rw [hbe]
      simp
    · rw [hbe]
      simp
    · dsimp only
      rw [hbe]
      exact raised_mk_of_ne hne

/-! ### Master lemma for the formula cascade -/

theorem process_formula_block_spec (s : Settings) (ec : EngineConfig)
    (engines : List String) (beh : Behavior) (image_path quality_level : String)
    (stats : UsageStats) :
    (process_formula_block s ec engines beh image_path quality_level stats).1.fields.attempts ≠ []
    ∧ numberedFrom 1
        (process_formula_block s ec engines beh image_path quality_level stats).1.fields.attempts
    ∧ (∀ a ∈ (process_formula_block s ec engines beh image_path quality_level stats).1.fields.attempts,
        a.is_compilable = formulaCheck a)
    ∧ (∀ a ∈ (process_formula_block s ec engines beh image_path quality_level
          stats).1.fields.attempts.dropLast, formula_accept s a = false)
    ∧ ((∃ a, (process_formula_block s ec engines beh image_path quality_level
            stats).1.fields.attempts.getLast? = some a
          ∧ a.is_compilable = true
          ∧ (process_formula_block s ec engines beh image_path quality_level
              stats).1.fields.engine_used = a.engine
          ∧ (process_formula_block s ec engines beh image_path quality_level
              stats).1.fields.text = a.result.getD ""
          ∧ (process_formula_block s ec engines beh image_path quality_level
              stats).1.fields.confidence = a.confidence
          ∧ (process_formula_block s ec engines beh image_path quality_level
              stats).1.fields.is_successful = true
          ∧ (process_formula_block s ec engines beh image_path quality_level
              stats).1.fields.is_compilable = true)
      ∨ (∃ a, best_effort_formula_choice
            (process_formula_block s ec engines beh image_path quality_level
              stats).1.fields.attempts = some a
          ∧ (process_formula_block s ec engines beh image_path quality_level
              stats).1.fields.engine_used = a.engine
          ∧ (process_formula_block s ec engines beh image_path quality_level
              stats).1.fields.text = a.result.getD ""
          ∧ (process_formula_block s ec engines beh image_path quality_level
              stats).1.fields.confidence = a.confidence
          ∧ (process_formula_block s ec engines beh image_path quality_level
              stats).1.fields.is_successful = a.is_compilable
          ∧ (process_formula_block s ec engines beh image_path quality_level
              stats).1.fields.is_compilable = a.is_compilable))
    ∧ ((process_formula_block s ec engines beh image_path quality_level stats).2 = stats
      ∨ ((process_formula_block s ec engines beh image_path quality_level stats).2
            = { stats with fallback_usage := stats.fallback_usage + 1 }
          ∧ (process_formula_block s ec engines beh image_path quality_level
              stats).1.fields.is_successful = true)
      ∨ ((process_formula_block s ec engines beh image_path quality_level stats).2
            = { stats with mathpix_daily_usage := stats.mathpix_daily_usage + 1
                           emergency_usage := stats.emergency_usage + 1 }
          ∧ emergency_available s ec engines stats = true
          ∧ ∃ em, ec.formula_emergency = some em
              ∧ ∃ last, (process_formula_block s ec engines beh image_path quality_level
                    stats).1.fields.attempts.getLast? = some last
                  ∧ last.engine = em ∧ last.image_quality = "A"))
    ∧ (process_formula_block s ec engines beh image_path quality_level
        stats).1.fields.confidence_level = ConfidenceLevel.low
    ∧ (process_formula_block s ec engines beh image_path quality_level stats).1.fields.is_successful
      = (process_formula_block s ec engines beh image_path quality_level
          stats).1.fields.is_compilable
    ∧ (process_formula_block s ec engines beh image_path quality_level stats).1.raised
        = true := by
  unfold process_formula_block
  by_cases hacc1 : formula_accept s (sealFormula (attempt_ocr engines beh ec.formula_primary
      image_path "formula" quality_level 1)) = true
  · rw [if_pos hacc1]
    have hcomp1 : (sealFormula (attempt_ocr engines beh ec.formula_primary image_path
        "formula" quality_level 1)).is_compilable = true := by
      simp only [formula_accept, Bool.and_eq_true] at hacc1
      exact hacc1.1
    refine ⟨by simp, ⟨by rw [sealFormula_number, attempt_ocr_number], trivial⟩, ?_, by simp,
      ?_, Or.inl rfl, by simp, by simp, ?_⟩
    · intro a ha
      simp only [mkOCRResult_fields, attemptedOCRResult_attempts, List.mem_singleton] at ha
      rw [ha]
      exact sealed_flag_correct _
    · refine Or.inl ⟨_, rfl, hcomp1, ?_, by simp, by simp, by simp, by simp⟩
      simp [sealFormula_engine, attempt_ocr_engine]
    · dsimp only
      apply raised_mk_of_ne
      simp
  · rw [if_neg hacc1]
    have hacc1' : formula_accept s (sealFormula (attempt_ocr engines beh ec.formula_primary
        image_path "formula" quality_level 1)) = false := Bool.not_eq_true _ |>.mp hacc1
    have hnum1 : numberedFrom 1 [sealFormula (attempt_ocr engines beh ec.formula_primary
        image_path "formula" quality_level 1)] :=
      ⟨by rw [sealFormula_number, attempt_ocr_number], trivial⟩
    have hflags1 : ∀ a ∈ [sealFormula (attempt_ocr engines beh ec.formula_primary
        image_path "formula" quality_level 1)], a.is_compilable = formulaCheck a := by
      intro a ha
      rw [List.mem_singleton.mp ha]
      exact sealed_flag_correct _
    obtain ⟨⟨suf, hsuf, hfail⟩, hframe, hnum, hflg, hsome⟩ :=
      formula_fallbacks_spec s engines beh image_path quality_level ec.formula_fallback
        [sealFormula (attempt_ocr engines beh ec.formula_primary image_path "formula"
          quality_level 1)] stats
    obtain ⟨hstN, hstS⟩ :=
      formula_fallbacks_stats s engines beh image_path quality_level ec.formula_fallback
        [sealFormula (attempt_ocr engines beh ec.formula_primary image_path "formula"
          quality_level 1)] stats
    split
    · -- a fallback engine accepted
      next out_ x st2 heq =>
      rw [heq] at hsome hstS hnum hflg
      obtain ⟨pre, a, h2, h3, h4, h5⟩ := hsome out_ rfl
      dsimp only at h2
      have hst2 : st2 = { stats with fallback_usage := stats.fallback_usage + 1 } :=
        hstS out_ rfl
      have hatt : out_.fields.attempts = pre ++ [a] := by rw [h5]; simp
      have hcompa : a.is_compilable = true := by
        simp only [formula_accept, Bool.and_eq_true] at h4
        exact h4.1
      refine ⟨?_, ?_, ?_, ?_, ?_, ?_, ?_, ?_, ?_⟩
      · simp [hatt]
      · dsimp only
        rw [hatt, ← h2]
        exact hnum hnum1
      · dsimp only
        rw [hatt, ← h2]
        exact hflg hflags1
      · intro b hb
        dsimp only at hb
        rw [hatt, List.dropLast_concat] at hb
        rcases h3 b hb with h6 | h6
        · rw [List.mem_singleton.mp h6]
          exact hacc1'
        · exact h6
      · refine Or.inl ⟨a, ?_, hcompa, ?_, ?_, ?_, ?_, ?_⟩
        · dsimp only
          rw [hatt]
          exact List.getLast?_concat _
        all_goals rw [h5]; simp
      · refine Or.inr (Or.inl ⟨hst2, ?_⟩)
        rw [h5]
        simp
      · rw [h5]
        simp
      · rw [h5]
        simp
      · dsimp only
        rw [h5]
        apply raised_mk_of_ne
        simp
    · -- no fallback accepted
      next att2 st2 heq =>
      rw [heq] at hsuf hfail hnum hflg hstN
      dsimp only at hsuf hfail hnum hflg hstN
      have hst2 : st2 = stats := hstN rfl
      have hfail2 : ∀ b ∈ att2, formula_accept s b = false := by
        intro b hb
        rw [hsuf] at hb
        rcases List.mem_append.mp hb with h6 | h6
        · rw [List.mem_singleton.mp h6]
          exact hacc1'
        · exact hfail rfl b h6
      have hflags2 : ∀ b ∈ att2, b.is_compilable = formulaCheck b := hflg hflags1
      have hnum2 : numberedFrom 1 att2 := hnum hnum1
      have hne2 : att2 ≠ [] := by
        rw [hsuf]
        simp
      split
      · -- QUALITY_RETRY: primary engine again at tier "A"
        by_cases haccr : formula_accept s (sealFormula (attempt_ocr engines beh
            ec.formula_primary image_path "formula" "A" (att2.length + 1))) = true
        · rw [if_pos haccr]
          have hcompr : (sealFormula (attempt_ocr engines beh ec.formula_primary image_path
              "formula" "A" (att2.length + 1))).is_compilable = true := by
            simp only [formula_accept, Bool.and_eq_true] at haccr
            exact haccr.1
          refine ⟨by simp, ?_, ?_, ?_, ?_, Or.inl hst2, by simp, by simp, ?_⟩
          · dsimp only
            simp only [mkOCRResult_fields, attemptedOCRResult_attempts]
            exact numberedFrom_append_one _ 1 _ hnum2
              (by rw [sealFormula_number, attempt_ocr_number]; exact Nat.add_comm _ _)
          · intro b hb
            simp only [mkOCRResult_fields, attemptedOCRResult_attempts] at hb
            rcases List.mem_append.mp hb with h6 | h6
            · exact hflags2 b h6
            · rw [List.mem_singleton.mp h6]
              exact sealed_flag_correct _
          · intro b hb
            simp only [mkOCRResult_fields, attemptedOCRResult_attempts, List.dropLast_concat] at hb
            exact hfail2 b hb
          · refine Or.inl ⟨_, ?_, hcompr, by simp [sealFormula_engine, attempt_ocr_engine],
              by simp, by simp, by simp, by simp⟩
            simp only [mkOCRResult_fields, attemptedOCRResult_attempts]
            exact List.getLast?_concat _
          · dsimp only
            apply raised_mk_of_ne
            simp
        · rw [if_neg haccr]
          have haccr' : formula_accept s (sealFormula (attempt_ocr engines beh
              ec.formula_primary image_path "formula" "A" (att2.length + 1))) = false :=
            Bool.not_eq_true _ |>.mp haccr
          obtain ⟨t1, t2, t3, t4, t5, t6, t7, t8, t9⟩ := formula_tail_spec s ec engines beh
            image_path (att2 ++ [sealFormula (attempt_ocr engines beh ec.formula_primary
              image_path "formula" "A" (att2.length + 1))]) st2 (by simp)
            (numberedFrom_append_one _ 1 _ hnum2
              (by rw [sealFormula_number, attempt_ocr_number]; exact Nat.add_comm _ _))
            (by
              intro b hb
              rcases List.mem_append.mp hb with h6 | h6
              · exact hflags2 b h6
              · rw [List.mem_singleton.mp h6]
                exact sealed_flag_correct _)
            (by
              intro b hb
              rcases List.mem_append.mp hb with h6 | h6
              · exact hfail2 b h6
              · rw [List.mem_singleton.mp h6]
                exact haccr')
          refine ⟨t1, t2, t3, t4, t5, ?_, t7, t8, t9⟩
          rcases t6 with h | ⟨h1, h2, h3⟩
          · exact Or.inl (h.trans hst2)
          · rw [hst2] at h2
            exact Or.inr (Or.inr ⟨h1.trans (by rw [hst2]), h2, h3⟩)
      · -- quality tier already "A": straight to the emergency tier
        obtain ⟨t1, t2, t3, t4, t5, t6, t7, t8, t9⟩ := formula_tail_spec s ec engines beh
          image_path att2 st2 hne2 hnum2 hflags2 hfail2
        refine ⟨t1, t2, t3, t4, t5, ?_, t7, t8, t9⟩
        rcases t6 with h | ⟨h1, h2, h3⟩
        · exact Or.inl (h.trans hst2)
        · rw [hst2] at h2
          exact Or.inr (Or.inr ⟨h1.trans (by rw [hst2]), h2, h3⟩)

/-! ### Daily-quota bound helpers -/

theorem process_formula_block_daily_bound (s : Settings) (ec : EngineConfig)
    (engines : List String) (beh : Behavior) (image_path quality_level : String)
    (stats : UsageStats) (h : stats.mathpix_daily_usage ≤ s.mathpix_daily_limit) :
    (process_formula_block s ec engines beh image_path quality_level
      stats).2.mathpix_daily_usage ≤ s.mathpix_daily_limit := by
  obtain ⟨_, _, _, _, _, h6, _, _⟩ :=
    process_formula_block_spec s ec engines beh image_path quality_level stats
  rcases h6 with h1 | ⟨h1, _⟩ | ⟨h1, h2, _⟩
  · rw [h1]
    exact h
  · rw [h1]
    exact h
  · rw [h1]
    obtain ⟨em, _, _, _, hlt⟩ := (emergency_available_iff s ec engines stats).mp h2
    exact Nat.succ_le_of_lt hlt

theorem run_formula_jobs_daily_bound (s : Settings) (ec : EngineConfig)
    (engines : List String) :
    ∀ (jobs : List (Behavior × String × String)) (stats : UsageStats),
      stats.mathpix_daily_usage ≤ s.mathpix_daily_limit →
      (run_formula_jobs s ec engines jobs stats).mathpix_daily_usage
        ≤ s.mathpix_daily_limit := by
  intro jobs
  induction jobs with
  | nil =>
      intro stats h
      exact h
  | cons j rest ih =>
      intro stats h
      simp only [run_formula_jobs, List.foldl_cons] at ih ⊢
      exact ih _ (process_formula_block_daily_bound s ec engines j.1 j.2.1 j.2.2 stats h)

/-! ### Claim theorems -/

/-- Claim C1: in a formula-block resolution the EMERGENCY tier runs only when
no earlier tier accepted (every attempt before the last fails the tier
acceptance predicate), an emergency engine is configured and present in the
registry, and the daily usage counter is strictly below the daily limit; an
emergency attempt bumps `mathpix_daily_usage` and `emergency_usage` by exactly
one whether or not it is accepted, and under sequential resolutions the daily
counter never exceeds the daily limit. -/
theorem emergency_quota_discipline (s : Settings) (ec : EngineConfig)
    (engines : List String) (beh : Behavior) (image_path quality_level : String)
    (stats : UsageStats) (jobs : List (Behavior × String × String))
    (h : stats.mathpix_daily_usage ≤ s.mathpix_daily_limit) :
    (((process_formula_block s ec engines beh image_path quality_level
            stats).2.mathpix_daily_usage = stats.mathpix_daily_usage
        ∧ (process_formula_block s ec engines beh image_path quality_level
            stats).2.emergency_usage = stats.emergency_usage)
      ∨ ((process_formula_block s ec engines beh image_path quality_level
            stats).2.mathpix_daily_usage = stats.mathpix_daily_usage + 1
        ∧ (process_formula_block s ec engines beh image_path quality_level
            stats).2.emergency_usage = stats.emergency_usage + 1
        ∧ (∃ em, ec.formula_emergency = some em ∧ em ≠ "" ∧ em ∈ engines)
        ∧ stats.mathpix_daily_usage < s.mathpix_daily_limit
        ∧ (∀ a ∈ (process_formula_block s ec engines beh image_path quality_level
            stats).1.fields.attempts.dropLast, formula_accept s a = false)))
    ∧ (process_formula_block s ec engines beh image_path quality_level
        stats).2.mathpix_daily_usage ≤ s.mathpix_daily_limit
    ∧ (run_formula_jobs s ec engines jobs stats).mathpix_daily_usage
        ≤ s.mathpix_daily_limit := by
  obtain ⟨_, _, _, hdrop, _, h6, _, _⟩ :=
    process_formula_block_spec s ec engines beh image_path quality_level stats
  refine ⟨?_,
    process_formula_block_daily_bound s ec engines beh image_path quality_level stats h,
    run_formula_jobs_daily_bound s ec engines jobs stats h⟩
  rcases h6 with h1 | ⟨h1, _⟩ | ⟨h1, h2, _⟩
  · exact Or.inl ⟨by rw [h1], by rw [h1]⟩
  · exact Or.inl ⟨by rw [h1], by rw [h1]⟩
  · obtain ⟨em, hem, hemne, hmm, hlt⟩ := (emergency_available_iff s ec engines stats).mp h2
    exact Or.inr ⟨by rw [h1], by rw [h1], ⟨em, hem, hemne, hmm⟩, hlt, hdrop⟩

/-- Witness for C1: a concrete emergency-eligible resolution sequence keeps the
daily counter within the limit. -/
theorem emergency_quota_discipline_witness :
    (run_formula_jobs defaultSettings defaultEngineConfig ["mathpix"]
        [(behEmergencyOnly, "img", "A")] initStats).mathpix_daily_usage
      ≤ defaultSettings.mathpix_daily_limit :=
  (emergency_quota_discipline defaultSettings defaultEngineConfig ["mathpix"]
    behEmergencyOnly "img" "A" initStats [(behEmergencyOnly, "img", "A")]
    (by decide)).2.2

/-- Claim C2: in the formula cascade the compilability flag is computed and
stored on every recorded attempt regardless of confidence; the
PRIMARY/FALLBACKS/QUALITY_RETRY tiers accept exactly compilable attempts at or
above the formula confidence threshold, so no attempt before the last can be
both compilable and at/above threshold (a high-confidence non-compilable
attempt falls through); and the EMERGENCY tier accepts on compilability alone:
a compilable emergency attempt is accepted with no confidence condition, a
non-compilable one falls to best-effort selection. -/
theorem formula_acceptance_rules (s : Settings) (ec : EngineConfig)
    (engines : List String) (beh : Behavior) (image_path quality_level : String)
    (stats : UsageStats) :
    (∀ a ∈ (process_formula_block s ec engines beh image_path quality_level
        stats).1.fields.attempts, a.is_compilable = formulaCheck a)
    ∧ (∀ a ∈ (process_formula_block s ec engines beh image_path quality_level
          stats).1.fields.attempts.dropLast,
        ¬(a.is_compilable = true ∧ s.formula_confidence_threshold ≤ a.confidence))
    ∧ (∀ (attempts : List OCRAttempt) (st : UsageStats),
        emergency_available s ec engines st = true →
        (sealFormula (attempt_ocr engines beh (ec.formula_emergency.getD "") image_path
            "formula" "A" (attempts.length + 1))).is_compilable = true →
        (formula_emergency_and_best_effort s ec engines beh image_path attempts st).1
          = mkOCRResult ((sealFormula (attempt_ocr engines beh (ec.formula_emergency.getD "")
                image_path "formula" "A" (attempts.length + 1))).result.getD "")
              (sealFormula (attempt_ocr engines beh (ec.formula_emergency.getD "") image_path
                "formula" "A" (attempts.length + 1))).confidence
              (ec.formula_emergency.getD "")
              (attempts ++ [sealFormula (attempt_ocr engines beh (ec.formula_emergency.getD "")
                image_path "formula" "A" (attempts.length + 1))]) true true)
    ∧ (∀ (attempts : List OCRAttempt) (st : UsageStats),
        emergency_available s ec engines st = true →
        (sealFormula (attempt_ocr engines beh (ec.formula_emergency.getD "") image_path
            "formula" "A" (attempts.length + 1))).is_compilable = false →
        (formula_emergency_and_best_effort s ec engines beh image_path attempts st).1
          = best_effort_formula (attempts ++ [sealFormula (attempt_ocr engines beh
              (ec.formula_emergency.getD "") image_path "formula" "A"
              (attempts.length + 1))])) := by
  obtain ⟨_, _, h3, h4, _, _, _, _⟩ :=
    process_formula_block_spec s ec engines beh image_path quality_level stats
  refine ⟨h3, ?_, ?_, ?_⟩
  · intro a ha hcontr
    have hfa := h4 a ha
    rw [formula_accept, hcontr.1] at hfa
    simp [hcontr.2] at hfa
  · intro attempts st hav hcomp
    exact (formula_emergency_spec_on s ec engines beh image_path attempts st hav).2.1 hcomp
  · intro attempts st hav hcomp
    exact (formula_emergency_spec_on s ec engines beh image_path attempts st hav).2.2 hcomp

/-- Witness for C2: a concrete compilable emergency attempt with confidence
far below the formula threshold is still accepted. -/
theorem formula_acceptance_rules_witness :
    (formula_emergency_and_best_effort defaultSettings defaultEngineConfig ["mathpix"]
        behEmergencyOnly "img" [] initStats).1.fields.is_successful = true := by
  rw [(formula_acceptance_rules defaultSettings defaultEngineConfig ["mathpix"]
      behEmergencyOnly "img" "A" initStats).2.2.1 [] initStats (by decide) (by decide)]
  rfl

/-- Claim C3 (code bug): the intended best-effort selection — the
maximum-confidence compilable attempt, else the overall maximum-confidence
attempt, with success exactly on compilability — is implemented and decides
the constructor inputs, but no OCRResult is ever returned: every exit of
`process_formula_block` raises a pydantic ValidationError at `OCRResult(...)`
because the attempts are stdlib-dataclass instances.  Concretely: with a
non-compilable 0.9-confidence primary and a compilable 0.1-confidence
fallback, the attempted result is built from the compilable fallback and
marked successful — and then the construction raises instead of returning. -/
theorem best_effort_selection (s : Settings) (ec : EngineConfig)
    (engines : List String) (beh : Behavior) (image_path quality_level : String)
    (stats : UsageStats) :
    (process_formula_block s ec engines beh image_path quality_level stats).1.raised = true
    ∧ (process_formula_block s ec engines beh image_path quality_level
          stats).1.fields.is_successful
        = (process_formula_block s ec engines beh image_path quality_level
            stats).1.fields.is_compilable
    ∧ (process_formula_block defaultSettings defaultEngineConfig ["pix2tex", "trocr"]
        behMixedFormula "img" "A" initStats).1.raised = true
    ∧ (process_formula_block defaultSettings defaultEngineConfig ["pix2tex", "trocr"]
        behMixedFormula "img" "A" initStats).1.fields.engine_used = "trocr"
    ∧ (process_formula_block defaultSettings defaultEngineConfig ["pix2tex", "trocr"]
        behMixedFormula "img" "A" initStats).1.fields.text = "x+1"
    ∧ (process_formula_block defaultSettings defaultEngineConfig ["pix2tex", "trocr"]
        behMixedFormula "img" "A" initStats).1.fields.confidence = Rat.divInt 1 10
    ∧ (process_formula_block defaultSettings defaultEngineConfig ["pix2tex", "trocr"]
        behMixedFormula "img" "A" initStats).1.fields.is_successful = true
    ∧ (process_formula_block defaultSettings defaultEngineConfig ["pix2tex", "trocr"]
        behMixedFormula "img" "A" initStats).1.fields.is_compilable = true := by
  obtain ⟨_, _, _, _, _, _, _, h8, h9⟩ :=
    process_formula_block_spec s ec engines beh image_path quality_level stats
  exact ⟨h9, h8, by decide, by decide, by decide, by decide, by decide, by decide⟩

/-- Claim C4 (code bug): the claim promises that both resolvers return (never
raise) a well-formed OCRResult, and the cascade machinery does isolate adapter
failures — a raising adapter or an unregistered engine becomes a sealed
confidence-0 error attempt, and the recorded trail is non-empty with sequence
numbers 1..n — but the final `OCRResult(...)` construction raises a pydantic
ValidationError on every path (dataclass attempts in a
`List[OCRAttemptResult]` field), so both resolvers raise on every input. -/
theorem cascade_totality_and_numbering (s : Settings) (ec : EngineConfig)
    (engines : List String) (beh : Behavior) (image_path quality_level : String)
    (stats : UsageStats) :
    (process_text_block s ec engines beh image_path quality_level stats).1.raised = true
    ∧ (process_formula_block s ec engines beh image_path quality_level stats).1.raised = true
    ∧ (process_text_block s ec engines beh image_path quality_level
        stats).1.fields.attempts ≠ []
    ∧ (process_text_block s ec engines beh image_path quality_level
          stats).1.fields.attempts.map OCRAttempt.attempt_number
        = List.range' 1 (process_text_block s ec engines beh image_path quality_level
            stats).1.fields.attempts.length
    ∧ (process_formula_block s ec engines beh image_path quality_level
        stats).1.fields.attempts ≠ []
    ∧ (process_formula_block s ec engines beh image_path quality_level
          stats).1.fields.attempts.map OCRAttempt.attempt_number
        = List.range' 1 (process_formula_block s ec engines beh image_path quality_level
            stats).1.fields.attempts.length
    ∧ attempt_ocr ["paddleocr"] behText95 "doctr" "img" "text" "B" 2
        = { engine := "doctr", attempt_number := 2, image_quality := "B"
            confidence := 0, result := none, is_compilable := false
            error := some "engine not enabled or initialized" }
    ∧ attempt_ocr ["tesseract"] behText95 "tesseract" "img" "text" "B" 1
        = { engine := "tesseract", attempt_number := 1, image_quality := "B"
            confidence := 0, result := none, is_compilable := false
            error := some "engine raised" } := by
  obtain ⟨t1, t2, _, _, _, _, _, t8⟩ :=
    process_text_block_spec s ec engines beh image_path quality_level stats
  obtain ⟨f1, f2, _, _, _, _, _, _, f9⟩ :=
    process_formula_block_spec s ec engines beh image_path quality_level stats
  exact ⟨t8, f9, t1, numberedFrom_map_range' _ 1 t2, f1, numberedFrom_map_range' _ 1 f2,
    by decide, by decide⟩

/-- Claim C5 (code bug): the halting discipline is real — no attempt recorded
before the last one satisfies its tier acceptance predicate, so an accepted
attempt ends the trail and no further engine call is made — but on acceptance
the resolution does not return: the accept branch raises a pydantic
ValidationError at `OCRResult(...)`.  Concretely, a primary text attempt
accepted at confidence 0.95 leaves a one-element trail whose attempted result
is marked successful, and the call raises. -/
theorem cascade_halts_on_acceptance (s : Settings) (ec : EngineConfig)
    (engines : List String) (beh : Behavior) (image_path quality_level : String)
    (stats : UsageStats) :
    ((process_text_block s ec engines beh image_path quality_level
        stats).1.fields.attempts.dropLast.all (fun a => !text_accept s a)) = true
    ∧ ((process_formula_block s ec engines beh image_path quality_level
        stats).1.fields.attempts.dropLast.all (fun a => !formula_accept s a)) = true
    ∧ (process_text_block defaultSettings defaultEngineConfig ["paddleocr"] behText95
        "img" "B" initStats).1.fields.attempts.length = 1
    ∧ (process_text_block defaultSettings defaultEngineConfig ["paddleocr"] behText95
        "img" "B" initStats).1.fields.is_successful = true
    ∧ (process_text_block defaultSettings defaultEngineConfig ["paddleocr"] behText95
        "img" "B" initStats).1.raised = true := by
  obtain ⟨_, _, t3, _, _, _, _, _⟩ :=
    process_text_block_spec s ec engines beh image_path quality_level stats
  obtain ⟨_, _, _, f4, _, _, _, _, _⟩ :=
    process_formula_block_spec s ec engines beh image_path quality_level stats
  refine ⟨?_, ?_, by decide, by decide, by decide⟩
  · rw [List.all_eq_true]
    intro a ha
    rw [t3 a ha]
    rfl
  · rw [List.all_eq_true]
    intro a ha
    rw [f4 a ha]
    rfl

/-- Claim C6 (code bug): the determining attempt does fix the `engine_used`,
`text` and `confidence` handed to the constructor — the accepting (last)
attempt when a tier accepted, otherwise the best-effort choice (maximum
confidence for text, compilability-preferring for formulas; a `None` result
text is rendered as the empty string) — but no OCRResult carrying them is
ever returned: every exit raises a pydantic ValidationError, whose recorded
constructor inputs are characterized here. -/
theorem engine_used_provenance (s : Settings) (ec : EngineConfig)
    (engines : List String) (beh : Behavior) (image_path quality_level : String)
    (stats : UsageStats) :
    (process_text_block s ec engines beh image_path quality_level stats).1.raised = true
    ∧ (process_formula_block s ec engines beh image_path quality_level stats).1.raised = true
    ∧ (((process_text_block s ec engines beh image_path quality_level
          stats).1.fields.is_successful = true
        ∧ ∃ a, (process_text_block s ec engines beh image_path quality_level
              stats).1.fields.attempts.getLast? = some a
            ∧ text_accept s a = true
            ∧ (process_text_block s ec engines beh image_path quality_level
                stats).1.fields.engine_used = a.engine
            ∧ (process_text_block s ec engines beh image_path quality_level
                stats).1.fields.text = a.result.getD ""
            ∧ (process_text_block s ec engines beh image_path quality_level
                stats).1.fields.confidence = a.confidence)
      ∨ ((process_text_block s ec engines beh image_path quality_level
            stats).1.fields.is_successful = false
        ∧ ∃ a, max_by_confidence (process_text_block s ec engines beh image_path
              quality_level stats).1.fields.attempts = some a
            ∧ (process_text_block s ec engines beh image_path quality_level
                stats).1.fields.engine_used = a.engine
            ∧ (process_text_block s ec engines beh image_path quality_level
                stats).1.fields.text = a.result.getD ""
            ∧ (process_text_block s ec engines beh image_path quality_level
                stats).1.fields.confidence = a.confidence))
    ∧ ((∃ a, (process_formula_block s ec engines beh image_path quality_level
            stats).1.fields.attempts.getLast? = some a
          ∧ a.is_compilable = true
          ∧ (process_formula_block s ec engines beh image_path quality_level
              stats).1.fields.engine_used = a.engine
          ∧ (process_formula_block s ec engines beh image_path quality_level
              stats).1.fields.text = a.result.getD ""
          ∧ (process_formula_block s ec engines beh image_path quality_level
              stats).1.fields.confidence = a.confidence)
      ∨ (∃ a, best_effort_formula_choice (process_formula_block s ec engines beh image_path
            quality_level stats).1.fields.attempts = some a
          ∧ (process_formula_block s ec engines beh image_path quality_level
              stats).1.fields.engine_used = a.engine
          ∧ (process_formula_block s ec engines beh image_path quality_level
              stats).1.fields.text = a.result.getD ""
          ∧ (process_formula_block s ec engines beh image_path quality_level
              stats).1.fields.confidence = a.confidence)) := by
  obtain ⟨_, _, _, t4, t5, _, _, t8⟩ :=
    process_text_block_spec s ec engines beh image_path quality_level stats
  obtain ⟨_, _, _, _, f5, _, _, _, f9⟩ :=
    process_formula_block_spec s ec engines beh image_path quality_level stats
  refine ⟨t8, f9, ?_, ?_⟩
  · cases hs : (process_text_block s ec engines beh image_path quality_level
        stats).1.fields.is_successful with
    | true => exact Or.inl ⟨rfl, t4 hs⟩
    | false => exact Or.inr ⟨rfl, t5 hs⟩
  · rcases f5 with ⟨a, h1, h2, h3, h4, h5, _, _⟩ | ⟨a, h1, h2, h3, h4, _, _⟩
    · exact Or.inl ⟨a, h1, h2, h3, h4, h5⟩
    · exact Or.inr ⟨a, h1, h2, h3, h4⟩


/-- Claim C7 (code bug): `confidence_level` was meant to be derived from
`confidence` in `OCRResult.__post_init__` (HIGH at confidence ≥ 0.9), but the
claim fails twice over: the stated scenario never yields a returned result —
the accepted-at-0.95 call raises a pydantic ValidationError at `OCRResult`
construction — and even the attempted construction keeps the declared default
LOW, because pydantic `BaseModel` never invokes the dataclass-style
`__post_init__` hook, while the written derivation yields HIGH at 0.95. -/
theorem confidence_level_never_derived :
    (∀ (s : Settings) (ec : EngineConfig) (engines : List String) (beh : Behavior)
        (image_path quality_level : String) (stats : UsageStats),
      (process_text_block s ec engines beh image_path quality_level
          stats).1.fields.confidence_level = ConfidenceLevel.low
      ∧ (process_formula_block s ec engines beh image_path quality_level
          stats).1.fields.confidence_level = ConfidenceLevel.low)
    ∧ (process_text_block defaultSettings defaultEngineConfig ["paddleocr"] behText95
        "img" "B" initStats).1.raised = true
    ∧ (process_text_block defaultSettings defaultEngineConfig ["paddleocr"] behText95
        "img" "B" initStats).1.fields.confidence = Rat.divInt 95 100
    ∧ (process_text_block defaultSettings defaultEngineConfig ["paddleocr"] behText95
        "img" "B" initStats).1.fields.confidence_level = ConfidenceLevel.low
    ∧ confidence_level_of (Rat.divInt 95 100) = ConfidenceLevel.high := by
  refine ⟨?_, by decide, by decide, by decide, by decide⟩
  intro s ec engines beh image_path quality_level stats
  obtain ⟨_, _, _, _, _, _, t7, _⟩ :=
    process_text_block_spec s ec engines beh image_path quality_level stats
  obtain ⟨_, _, _, _, _, _, f7, _, _⟩ :=
    process_formula_block_spec s ec engines beh image_path quality_level stats
  exact ⟨t7, f7⟩

/-- Claim C8 (code bug): `total_requests` and `successful_requests` are
declared in `usage_stats` and read by `get_stats`, but no resolution ever
increments them: both counters are left unchanged by every call to either
resolver. -/
theorem request_counters_never_recorded (s : Settings) (ec : EngineConfig)
    (engines : List String) (beh : Behavior) (image_path quality_level : String)
    (stats : UsageStats) :
    (process_text_block s ec engines beh image_path quality_level
        stats).2.total_requests = stats.total_requests
    ∧ (process_text_block s ec engines beh image_path quality_level
        stats).2.successful_requests = stats.successful_requests
    ∧ (process_formula_block s ec engines beh image_path quality_level
        stats).2.total_requests = stats.total_requests
    ∧ (process_formula_block s ec engines beh image_path quality_level
        stats).2.successful_requests = stats.successful_requests := by
  obtain ⟨_, _, _, _, _, t6, _, _⟩ :=
    process_text_block_spec s ec engines beh image_path quality_level stats
  obtain ⟨_, _, _, _, _, f6, _, _⟩ :=
    process_formula_block_spec s ec engines beh image_path quality_level stats
  refine ⟨?_, ?_, ?_, ?_⟩
  · rcases t6 with h | ⟨h, _⟩ <;> rw [h]
  · rcases t6 with h | ⟨h, _⟩ <;> rw [h]
  · rcases f6 with h | ⟨h, _⟩ | ⟨h, _⟩ <;> rw [h]
  · rcases f6 with h | ⟨h, _⟩ | ⟨h, _⟩ <;> rw [h]

/-- If every engine before `e` in the startup order initializes cleanly and
`e`'s initialize() raises, startup stops at `e`: the registry holds the clean
prefix plus `e` itself, and the abort is reported at `e`. -/
theorem initialize_engines_first_failure :
    ∀ (pre : List String) (e : String) (post : List String) (initOk : String → Bool),
      (∀ x ∈ pre, initOk x = true) → initOk e = false →
      initialize_engines (pre ++ e :: post) initOk = (pre ++ [e], some e) := by
  intro pre
  induction pre with
  | nil =>
      intro e post initOk _ he
      simp [initialize_engines, he]
  | cons x xs ih =>
      intro e post initOk hpre he
      have hx : initOk x = true := hpre x (List.mem_cons_self x xs)
      have ihh := ih e post initOk (fun y hy => hpre y (List.mem_cons_of_mem x hy)) he
      simp [initialize_engines, hx, ihh]

/-- Counterexample to claim C9 as stated: with tesseract's initialize()
raising, tesseract is NOT omitted from the registry (it was inserted before
its initialization ran) and doctr is never reached, so initialization of the
remaining adapters does not complete. -/
theorem registry_init_abort_cex :
    initialize_engines ["paddleocr", "tesseract", "doctr"] (fun x => !(x = "tesseract"))
      = (["paddleocr", "tesseract"], some "tesseract")
    ∧ "tesseract" ∈ (initialize_engines ["paddleocr", "tesseract", "doctr"]
        (fun x => !(x = "tesseract"))).1
    ∧ "doctr" ∉ (initialize_engines ["paddleocr", "tesseract", "doctr"]
        (fun x => !(x = "tesseract"))).1 := by
  refine ⟨by decide, by decide, by decide⟩

/-- Claim C9 (amended): when one adapter's initialize() raises during registry
startup, the exception aborts startup: the failing adapter remains in the
registry (it is inserted into the mapping before its initialize() is
awaited) and the adapters after it in the startup order are neither
initialized nor registered. -/
theorem registry_init_abort (pre post : List String) (e : String)
    (initOk : String → Bool) (hpre : ∀ x ∈ pre, initOk x = true)
    (he : initOk e = false) :
    initialize_engines (pre ++ e :: post) initOk = (pre ++ [e], some e)
    ∧ e ∈ (initialize_engines (pre ++ e :: post) initOk).1 := by
  have hmain := initialize_engines_first_failure pre e post initOk hpre he
  refine ⟨hmain, ?_⟩
  rw [hmain]
  simp

/-- Witness for C9's amended claim at the concrete tesseract failure. -/
theorem registry_init_abort_witness :
    initialize_engines ["paddleocr", "tesseract", "doctr"] (fun x => !(x = "tesseract"))
      = (["paddleocr", "tesseract"], some "tesseract")
    ∧ "tesseract" ∈ (initialize_engines ["paddleocr", "tesseract", "doctr"]
        (fun x => !(x = "tesseract"))).1 :=
  registry_init_abort ["paddleocr"] ["doctr"] "tesseract"
    (fun x => !(x = "tesseract")) (by decide) (by decide)

/-- Claim C10: whenever a formula resolution reaches the EMERGENCY tier
(observable as the emergency-usage counter moving), the recorded emergency
attempt is the last one of the trail, belongs to the configured emergency
engine, and carries quality tier "A" regardless of the caller-supplied
quality tier. -/
theorem emergency_attempt_quality_A (s : Settings) (ec : EngineConfig)
    (engines : List String) (beh : Behavior) (image_path quality_level : String)
    (stats : UsageStats)
    (h : (process_formula_block s ec engines beh image_path quality_level
        stats).2.emergency_usage ≠ stats.emergency_usage) :
    ∃ em last, ec.formula_emergency = some em
      ∧ (process_formula_block s ec engines beh image_path quality_level
          stats).1.fields.attempts.getLast? = some last
      ∧ last.engine = em ∧ last.image_quality = "A" := by
  obtain ⟨_, _, _, _, _, h6, _, _⟩ :=
    process_formula_block_spec s ec engines beh image_path quality_level stats
  rcases h6 with h1 | ⟨h1, _⟩ | ⟨h1, _, em, hem, last, hl, he, hq⟩
  · exact absurd (by rw [h1]) h
  · exact absurd (by rw [h1]) h
  · exact ⟨em, last, hem, hl, he, hq⟩

/-- Witness for C10: a caller-supplied quality tier "B" still produces an
emergency attempt recorded at tier "A". -/
theorem emergency_attempt_quality_A_witness :
    ∃ em last, defaultEngineConfig.formula_emergency = some em
      ∧ (process_formula_block defaultSettings defaultEngineConfig ["mathpix"]
          behEmergencyOnly "img" "B" initStats).1.fields.attempts.getLast? = some last
      ∧ last.engine = em ∧ last.image_quality = "A" :=
  emergency_attempt_quality_A defaultSettings defaultEngineConfig ["mathpix"]
    behEmergencyOnly "img" "B" initStats (by decide)

end AiCPrice
